import Mathlib

/-!
Gosu: draw-modifier dispatch and tile helpers (`Gosu/Image.hpp`), `FlagWrapper`
(`Gosu/Utility.hpp`) and the window loop (`GosuImpl/WindowGLFW.cpp`)

A shallow embedding of the variadic `Image::draw` / `Image::draw_temp` overload set, of the
compile-time guard `is_DrawModifier`, of `imagesFromTiledBitmap`, of the `FlagWrapper<T>`
bit-mask wrapper and of `Window::show` / `Window::close`, followed by theorems about them.

Conventions of the embedding:

* `double` values are only moved between argument slots by the dispatch; the single arithmetic
  operation performed on them is the division in the `ScaleAbsolute` overload. They are modelled
  by rationals with exact division.
* A template argument pack `Args... args` is a list of `DrawArg`, the sum of the argument types
  for which a `draw_temp` overload exists.
* The non-template `draw_temp` (the "final function call") is only declared in the header; the
  embedding returns the thirteen arguments it is called with as a `DrawCall` record.
* The underlying integer of an enumeration of width `w` bits is represented by its bit
  pattern, a natural number below `2 ^ w`.
* `Window::show` is a function of the surroundings it calls into (clock, input, hooks,
  graphics), given as an `Env`, and of a bound on the number of passes of its loop; it
  returns the steps it took, the state it left and how it ended. A hook is a function from
  the user state to what the call did: the user state it left, whether it called `close()`,
  and the value it returned or the exception it raised.
-/

namespace Gosu

/-! ## Data model of `Image.hpp` -/

/-- C++ `double`, modelled by exact rationals. -/
abbrev Double := ℚ

/-- Depth value: `ZPos` is a `double` (the position-less `draw` passes `0.0` for it). -/
abbrev ZPos := Double

/-- Modelled from the spec: `Gosu/Color.hpp` is not among the sources. A colour is a value
identified by its 32-bit ARGB word. -/
structure Color where
  argb : Nat
deriving DecidableEq, Repr

/-- Modelled from the spec: the constant `Color::WHITE` of the absent `Gosu/Color.hpp`
("all four corner colors = white"). -/
def Color.WHITE : Color := ⟨0xFFFFFFFF⟩

/-- Modelled from the spec: the blend-mode enumeration of the absent `Gosu/GraphicsBase.hpp`.
`Default` is the enumerator named in `Image.hpp`; `other n` stands for the remaining ones. -/
inductive AlphaMode where
  | Default
  | other (n : Nat)
deriving DecidableEq, Repr

/-- `struct Position : DrawModifier { double x, y; }`. -/
structure Position where
  x : Double
  y : Double
deriving DecidableEq, Repr

/-- `struct PositionOfCenter : DrawModifier { double x, y; }`. -/
structure PositionOfCenter where
  x : Double
  y : Double
deriving DecidableEq, Repr

/-- `struct Scale : DrawModifier { double x, y; }`. -/
structure Scale where
  x : Double
  y : Double
deriving DecidableEq, Repr

/-- `struct ScaleAbsolute : DrawModifier { double x, y; }`. -/
structure ScaleAbsolute where
  x : Double
  y : Double
deriving DecidableEq, Repr

/-- `struct Rotate : DrawModifier { double degrees; }`. -/
structure Rotate where
  degrees : Double
deriving DecidableEq, Repr

/-- `struct ColorSet : DrawModifier { Color c[4]; }`; the fields `c0 .. c3` are the array
elements `c[0] .. c[3]`. -/
structure ColorSet where
  c0 : Color
  c1 : Color
  c2 : Color
  c3 : Color
deriving DecidableEq, Repr

/-- The constructor `ColorSet(Color c1, Color c2, Color c3, Color c4) : c({c1, c2, c3, c4})`. -/
def ColorSet.new (c1 c2 c3 c4 : Color) : ColorSet := ⟨c1, c2, c3, c4⟩

/-- `struct ZPosSet : DrawModifier { ZPos z; }`. -/
structure ZPosSet where
  z : ZPos
deriving DecidableEq, Repr

/-- One element of the argument pack of `Image::draw`: a value of one of the nine argument
types for which a `draw_temp` overload exists. -/
inductive DrawArg where
  | Position (pos : Gosu.Position)
  | PositionOfCenter (pos : Gosu.PositionOfCenter)
  | Scale (scale : Gosu.Scale)
  | ScaleAbsolute (scale : Gosu.ScaleAbsolute)
  | Rotate (rot : Gosu.Rotate)
  | ColorSet (col : Gosu.ColorSet)
  | Color (col : Gosu.Color)
  | AlphaMode (am : Gosu.AlphaMode)
  | ZPosSet (zpos : Gosu.ZPosSet)
deriving DecidableEq, Repr

/-- The thirteen arguments of the final (non-template) `draw_temp` call: the canonical
parameter tuple a modifier `draw` resolves to. -/
structure DrawCall where
  x : Double
  y : Double
  z : ZPos
  factorX : Double
  factorY : Double
  angle : Double
  centerX : Double
  centerY : Double
  c1 : Color
  c2 : Color
  c3 : Color
  c4 : Color
  mode : AlphaMode
deriving DecidableEq, Repr

/-- An image as far as the dispatch observes it: the results of `width()` and `height()`
(both `unsigned`). -/
structure Image where
  width : Nat
  height : Nat
deriving DecidableEq, Repr

/-- The `draw_temp` overload set. The empty pack is the final function call, whose arguments
are returned; every other equation is the overload specialised on the type of the pack's
first element, which rewrites the slots it governs and recurses on the rest. -/
def Image.draw_temp (img : Image) (x y : Double) (z : ZPos) (factorX factorY : Double)
    (angle : Double) (centerX centerY : Double) (c1 c2 c3 c4 : Color) (mode : AlphaMode) :
    List DrawArg → DrawCall
  | [] => ⟨x, y, z, factorX, factorY, angle, centerX, centerY, c1, c2, c3, c4, mode⟩
  | .Position pos :: rest =>
      img.draw_temp pos.x pos.y z factorX factorY angle centerX centerY c1 c2 c3 c4 mode rest
  | .PositionOfCenter pos :: rest =>
      img.draw_temp pos.x pos.y z factorX factorY angle 0.5 0.5 c1 c2 c3 c4 mode rest
  | .Scale scale :: rest =>
      img.draw_temp x y z scale.x scale.y angle centerX centerY c1 c2 c3 c4 mode rest
  | .ScaleAbsolute scale :: rest =>
      img.draw_temp x y z (scale.x / (img.width : Double)) (scale.y / (img.height : Double))
        angle centerX centerY c1 c2 c3 c4 mode rest
  | .Rotate rot :: rest =>
      img.draw_temp x y z factorX factorY rot.degrees centerX centerY c1 c2 c3 c4 mode rest
  | .ColorSet col :: rest =>
      img.draw_temp x y z factorX factorY angle centerX centerY
        col.c0 col.c1 col.c2 col.c3 mode rest
  | .Color col :: rest =>
      img.draw_temp x y z factorX factorY angle centerX centerY col col col col mode rest
  | .AlphaMode am :: rest =>
      img.draw_temp x y z factorX factorY angle centerX centerY c1 c2 c3 c4 am rest
  | .ZPosSet zpos :: rest =>
      img.draw_temp x y zpos.z factorX factorY angle centerX centerY c1 c2 c3 c4 mode rest

/-- `Image::draw(double x, double y, ZPos z, Args... args)`. -/
def Image.draw (img : Image) (x y : Double) (z : ZPos) (args : List DrawArg) : DrawCall :=
  img.draw_temp x y z 1.0 1.0 0.0 0.0 0.0
    Color.WHITE Color.WHITE Color.WHITE Color.WHITE AlphaMode.Default args

/-- `Image::draw(Args... args)`, the position-less overload. -/
def Image.drawNoPos (img : Image) (args : List DrawArg) : DrawCall :=
  img.draw 0.0 0.0 0.0 args

/-! ## The specification's vocabulary for the dispatch -/

/-- The C++ type of a pack element; two elements have the same modifier type when their
kinds agree. -/
inductive ArgKind where
  | Position | PositionOfCenter | Scale | ScaleAbsolute | Rotate | ColorSet | Color
  | AlphaMode | ZPosSet
deriving DecidableEq, Repr

/-- The modifier type of a pack element. -/
def DrawArg.kind : DrawArg → ArgKind
  | .Position _ => .Position
  | .PositionOfCenter _ => .PositionOfCenter
  | .Scale _ => .Scale
  | .ScaleAbsolute _ => .ScaleAbsolute
  | .Rotate _ => .Rotate
  | .ColorSet _ => .ColorSet
  | .Color _ => .Color
  | .AlphaMode _ => .AlphaMode
  | .ZPosSet _ => .ZPosSet

/-- The groups of draw parameters a modifier can override. -/
inductive Group where
  | position | depth | scale | angle | center | colors | mode
deriving DecidableEq, Repr, Fintype

/-- The content of one parameter group. -/
inductive GroupValue where
  | pair (a b : Double)
  | single (a : Double)
  | corners (c1 c2 c3 c4 : Color)
  | blend (m : AlphaMode)
deriving DecidableEq, Repr

/-- The content of a parameter group in a resolved call. -/
def DrawCall.value (r : DrawCall) : Group → GroupValue
  | .position => .pair r.x r.y
  | .depth => .single r.z
  | .scale => .pair r.factorX r.factorY
  | .angle => .single r.angle
  | .center => .pair r.centerX r.centerY
  | .colors => .corners r.c1 r.c2 r.c3 r.c4
  | .mode => .blend r.mode

/-- The value a modifier gives to a parameter group, in the specification's words:
`Position` sets `(x, y)`; `PositionOfCenter` sets `(x, y)` and forces the centre to
`(0.5, 0.5)`; `Scale` sets the factors; `ScaleAbsolute` sets them to
`(targetWidth / width, targetHeight / height)`; `Rotate` sets the angle; `ColorSet` sets the
four corner colours; a `Color` sets all four corners to that colour; `AlphaMode` sets the
blend mode; `ZPosSet` overrides `z`. `none` when the modifier does not govern the group. -/
def DrawArg.gives (img : Image) : DrawArg → Group → Option GroupValue
  | .Position pos, .position => some (.pair pos.x pos.y)
  | .PositionOfCenter pos, .position => some (.pair pos.x pos.y)
  | .PositionOfCenter _, .center => some (.pair 0.5 0.5)
  | .Scale scale, .scale => some (.pair scale.x scale.y)
  | .ScaleAbsolute scale, .scale =>
      some (.pair (scale.x / (img.width : Double)) (scale.y / (img.height : Double)))
  | .Rotate rot, .angle => some (.single rot.degrees)
  | .ColorSet col, .colors => some (.corners col.c0 col.c1 col.c2 col.c3)
  | .Color col, .colors => some (.corners col col col col)
  | .AlphaMode am, .mode => some (.blend am)
  | .ZPosSet zpos, .depth => some (.single zpos.z)
  | _, _ => none

/-- Whether a modifier governs a parameter group. -/
def DrawArg.governs : DrawArg → Group → Bool
  | .Position _, .position => true
  | .PositionOfCenter _, .position => true
  | .PositionOfCenter _, .center => true
  | .Scale _, .scale => true
  | .ScaleAbsolute _, .scale => true
  | .Rotate _, .angle => true
  | .ColorSet _, .colors => true
  | .Color _, .colors => true
  | .AlphaMode _, .mode => true
  | .ZPosSet _, .depth => true
  | _, _ => false

/-- The last modifier of the list, in left-to-right order, that governs the group. -/
def lastGoverning (g : Group) (mods : List DrawArg) : Option DrawArg :=
  mods.reverse.find? (fun m => m.governs g)

/-- Two modifiers overlap when some parameter group is governed by both. -/
def DrawArg.overlaps (a b : DrawArg) : Prop :=
  ∃ g : Group, a.governs g = true ∧ b.governs g = true

instance (a b : DrawArg) : Decidable (a.overlaps b) :=
  inferInstanceAs (Decidable (∃ g : Group, a.governs g = true ∧ b.governs g = true))

/-- The tuple `draw(x, y, z, ...)` starts from: the defaults of `Image::draw`. -/
def DrawCall.initial (x y : Double) (z : ZPos) : DrawCall :=
  ⟨x, y, z, 1, 1, 0, 0, 0, Color.WHITE, Color.WHITE, Color.WHITE, Color.WHITE,
    AlphaMode.Default⟩

/-- Continuing the dispatch from an already assembled argument tuple. -/
def Image.resume (img : Image) (q : DrawCall) (rest : List DrawArg) : DrawCall :=
  img.draw_temp q.x q.y q.z q.factorX q.factorY q.angle q.centerX q.centerY
    q.c1 q.c2 q.c3 q.c4 q.mode rest

/-! ## `FlagWrapper<T>` of `Utility.hpp` -/

/-- The underlying integer type `int_type` of the enumeration `T`, of width `w` bits,
represented by bit patterns. The `static_cast`s between `T` and `int_type` keep the bit
pattern, so a value of `T` is represented the same way. -/
abbrev int_type (w : Nat) := Fin (2 ^ w)

/-- Bitwise `|` on `int_type`. -/
def int_type.or {w : Nat} (a b : int_type w) : int_type w :=
  ⟨a.val ||| b.val, Nat.or_lt_two_pow a.isLt b.isLt⟩

/-- Bitwise `&` on `int_type`. -/
def int_type.and {w : Nat} (a b : int_type w) : int_type w :=
  ⟨a.val &&& b.val, Nat.and_lt_two_pow a.val b.isLt⟩

/-- Bitwise `~` on `int_type`, cast back to the width of the type: every one of the `w`
bits is flipped. -/
def int_type.not {w : Nat} (a : int_type w) : int_type w :=
  ⟨2 ^ w - 1 - a.val, by have := a.isLt; omega⟩

/-- `class FlagWrapper<T>`: the single data member `flag`. -/
structure FlagWrapper (w : Nat) where
  flag : int_type w
deriving DecidableEq, Repr

namespace FlagWrapper

variable {w : Nat}

/-- `FlagWrapper() = default`, with the member initialiser `flag = static_cast<T>(0)`. -/
def default : FlagWrapper w := ⟨⟨0, Nat.two_pow_pos w⟩⟩

/-- `void Add(T f)`: returns the object after the call. -/
def Add (v : FlagWrapper w) (f : int_type w) : FlagWrapper w :=
  ⟨v.flag.or f⟩

/-- `void Remove(T f)`: returns the object after the call. -/
def Remove (v : FlagWrapper w) (f : int_type w) : FlagWrapper w :=
  ⟨v.flag.and f.not⟩

/-- `void Mask(T f)`: returns the object after the call. -/
def Mask (v : FlagWrapper w) (f : int_type w) : FlagWrapper w :=
  ⟨v.flag.and f⟩

/-- The variadic constructor `FlagWrapper(Arg head, Args... tail) : FlagWrapper(tail...)
{ Add(head); }`; the empty pack selects the defaulted constructor. -/
def ctor : List (int_type w) → FlagWrapper w
  | [] => default
  | head :: tail => (ctor tail).Add head

/-- `FlagWrapper operator|(FlagWrapper f) const`. -/
def or (v f : FlagWrapper w) : FlagWrapper w :=
  let ret := v
  ret.Add f.flag

/-- `FlagWrapper operator&(FlagWrapper f) const`. -/
def and (v f : FlagWrapper w) : FlagWrapper w :=
  let ret := v
  ret.Mask f.flag

/-- `FlagWrapper operator~() const`. -/
def compl (v : FlagWrapper w) : FlagWrapper w :=
  let ret := v
  { ret with flag := v.flag.not }

/-- `operator bool() const`. -/
def toBool (v : FlagWrapper w) : Bool :=
  decide (v.flag.val ≠ 0)

/-- `bool operator==(const FlagWrapper& rhs) const`. -/
def eq (v rhs : FlagWrapper w) : Bool :=
  decide (v.flag = rhs.flag)

/-- `bool operator!=(const FlagWrapper& rhs) const`. -/
def ne (v rhs : FlagWrapper w) : Bool :=
  decide (v.flag ≠ rhs.flag)

/-- `FlagWrapper operator|(T f) const`. -/
def orEnum (v : FlagWrapper w) (f : int_type w) : FlagWrapper w :=
  let ret := v
  ret.Add f

/-- `FlagWrapper operator&(T f) const`. -/
def andEnum (v : FlagWrapper w) (f : int_type w) : FlagWrapper w :=
  let ret := v
  ret.Mask f

/-- The constructor as the specification words it: start from zero and fold the argument
list from the left with `Add`. -/
def foldAdd (vs : List (int_type w)) : FlagWrapper w :=
  vs.foldl Add default

end FlagWrapper

/-! ## The compile-time guard `is_DrawModifier` of `Image.hpp` -/

/-- A C++ type as the guard sees it: the two types with a partial specialisation of their
own, the class `DrawModifier`, the seven structs declared `: public DrawModifier`, any
further class derived from `DrawModifier`, and every other type (`double`, `int`, ...). -/
inductive CppType where
  | AlphaMode | Color | DrawModifier
  | Position | PositionOfCenter | Scale | ScaleAbsolute | Rotate | ColorSet | ZPosSet
  | derivedClass (id : Nat)
  | double | int
  | otherType (id : Nat)
deriving DecidableEq, Repr

/-- Whether the type is a class declared with `DrawModifier` as a base class. -/
def CppType.derivedFromDrawModifier : CppType → Bool
  | .Position | .PositionOfCenter | .Scale | .ScaleAbsolute | .Rotate | .ColorSet
  | .ZPosSet => true
  | .derivedClass _ => true
  | _ => false

/-- The standard trait `std::is_base_of<DrawModifier, T>::value`: true when `T` is a class
derived from `DrawModifier` and also when `T` is the class `DrawModifier` itself. -/
def is_base_of_DrawModifier (t : CppType) : Bool :=
  decide (t = CppType.DrawModifier) || t.derivedFromDrawModifier

/-- The member `value` of `is_DrawModifier<Args...>`: the primary template for the empty pack,
the partial specialisations for a leading `AlphaMode` and a leading `Color`, and the
specialisation `is_DrawModifier<T, Args...>` for every other leading type. -/
def is_DrawModifier : List CppType → Bool
  | [] => true
  | .AlphaMode :: args => is_DrawModifier args
  | .Color :: args => is_DrawModifier args
  | t :: args => is_base_of_DrawModifier t && is_DrawModifier args

/-! ## `imagesFromTiledBitmap` of `Image.hpp` -/

/-- Conversion of a `size_t` to `int` (32 bits, two's complement). -/
def toInt (n : Nat) : Int := Int.bmod n (2 ^ 32)

/-- The loop shared by both overloads:
`for (int i = 0, num = tiles.size(); i < num; ++i) appendTo.push_back(value_type(new
Image(tiles[i])))`. `wrap` is the conversion `Container::value_type(new Gosu::Image(...))`,
and `push_back` appends at the end of the container. -/
def pushTiles {V : Type} (wrap : Image → V) (tiles : List Image) (appendTo : List V) :
    List V :=
  let num : Int := toInt tiles.length
  (List.range num.toNat).foldl
    (fun acc i =>
      match tiles.get? i with
      | some tile => acc ++ [wrap tile]
      | none => acc)
    appendTo

/-- `imagesFromTiledBitmap(graphics, filename, tileWidth, tileHeight, tileable, appendTo)`;
`loadTiles` is the overload taking a file name, declared in the header and defined
elsewhere. Returns the container after the call. -/
def imagesFromTiledBitmap {G F V : Type} (loadTiles : G → F → Int → Int → Bool → List Image)
    (wrap : Image → V) (graphics : G) (filename : F) (tileWidth tileHeight : Int)
    (tileable : Bool) (appendTo : List V) : List V :=
  let tiles := loadTiles graphics filename tileWidth tileHeight tileable
  pushTiles wrap tiles appendTo

/-- `imagesFromTiledBitmap(graphics, bmp, tileWidth, tileHeight, tileable, appendTo)`;
`loadTiles` is the overload taking a `Bitmap`. Returns the container after the call. -/
def imagesFromTiledBitmapOfBitmap {G B V : Type}
    (loadTiles : G → B → Int → Int → Bool → List Image)
    (wrap : Image → V) (graphics : G) (bmp : B) (tileWidth tileHeight : Int)
    (tileable : Bool) (appendTo : List V) : List V :=
  let tiles := loadTiles graphics bmp tileWidth tileHeight tileable
  pushTiles wrap tiles appendTo

/-! ## `Window` of `WindowGLFW.cpp` -/

/-- The window as far as `show` and `close` touch it: the members `updateInterval` and
`closed` of `Window::Impl`, whether `pimpl->graphics` is non-null, and the two platform
facts `close` changes, the visibility set by `ShowWindow` and whether `glfwTerminate` has
run. -/
structure Window where
  updateInterval : Double
  closed : Bool
  hasGraphics : Bool
  visible : Bool
  glfwTerminated : Bool
deriving DecidableEq, Repr

/-- `Window::close()`: `ShowWindow(handle(), SW_HIDE); pimpl->closed = true;
glfwTerminate();`. -/
def Window.close (w : Window) : Window :=
  let w := { w with visible := false }
  let w := { w with closed := true }
  { w with glfwTerminated := true }

/-- An exception value. -/
abbrev Exn := Nat

/-- What a call of a user hook did: the user state it left, whether it called `close()`,
and whether it returned a value or raised. -/
structure HookResult (U : Type) (α : Type) where
  user : U
  calledClose : Bool
  result : Except Exn α

/-- The surroundings of `Window::show`: the clock (`milliseconds k` is the reading of the
`k`-th call of `milliseconds()`), the `Input` object, the virtual hooks `update`,
`needsRedraw` and `draw`, the outcome of `graphics().begin()`, and the function pointer
`GosusDarkSide::oncePerTick` (`none` when it is null). -/
structure Env (U : Type) where
  milliseconds : Nat → Nat
  inputUpdate : U → HookResult U Unit
  mouseInside : U → Bool
  update : U → HookResult U Unit
  needsRedraw : U → HookResult U Bool
  begin : U → Bool
  draw : U → HookResult U Unit
  oncePerTick : Option (U → HookResult U Unit)

/-- The observable steps of `show`. `update ms` is a call of the `update()` hook in the
iteration whose clock reading was `ms`. -/
inductive Event where
  | showWindow
  | milliseconds (ms : Nat)
  | inputUpdate
  | setCursor
  | update (ms : Nat)
  | needsRedraw
  | graphicsBegin (ok : Bool)
  | draw
  | graphicsEnd
  | swapBuffers
  | oncePerTick
  | sleep (ms : Nat)
  | close
deriving DecidableEq, Repr

/-- The state `show` works on: the window, the user state the hooks act on, the local
`lastTick`, and the number of clock readings taken so far. -/
structure ShowState (U : Type) where
  win : Window
  user : U
  lastTick : Nat
  calls : Nat

/-- A piece of `show` that has run: the steps it took, the state it left, and the exception
it raised, if any. -/
structure Step (U : Type) where
  events : List Event
  state : ShowState U
  raised : Option Exn

/-- Sequencing: the second piece runs only when the first did not raise. -/
def Step.andThen {U : Type} (a : Step U) (f : ShowState U → Step U) : Step U :=
  match a.raised with
  | some _ => a
  | none =>
    let b := f a.state
    ⟨a.events ++ b.events, b.state, b.raised⟩

/-- A platform call that neither raises nor changes the state. -/
def ShowState.log {U : Type} (s : ShowState U) (ev : Event) : Step U :=
  ⟨[ev], s, none⟩

/-- The state a hook call with the given result leaves: the user state of the result, and
the window closed when the hook called `close()`. -/
def ShowState.after {U α : Type} (s : ShowState U) (r : HookResult U α) : ShowState U :=
  { s with user := r.user, win := if r.calledClose then s.win.close else s.win }

/-- The step a hook adds when it calls `close()`. -/
def closeIf (b : Bool) : List Event := if b then [Event.close] else []

/-- A call of a hook with the given result: the call itself, the `close()` it made, if any,
the user state it left, and the exception it raised, if any. -/
def ShowState.callHook {U α : Type} (s : ShowState U) (ev : Event) (r : HookResult U α) :
    Step U :=
  ⟨ev :: closeIf r.calledClose, s.after r,
    match r.result with
    | .ok _ => none
    | .error e => some e⟩

/-- `static_cast<unsigned>(d)` for a `double`. For `-1 < d < 2 ^ 32` the conversion drops the
fractional part and the result is the natural number `⌊d⌋₊`, which is `0` for `-1 < d < 0`.
For every other `d` the truncated value does not fit `unsigned` and the conversion has no
defined result in C++: the value given here for such a `d` describes no behaviour of the
program, and the theorems that evaluate the tick condition from the update interval assume
`-1 < updateInterval < 2 ^ 32`. -/
def static_cast_unsigned (d : Double) : Nat := ⌊d⌋₊ % 2 ^ 32

/-- The unsigned difference `ms - lastTick` (32 bits, wrapping). -/
def elapsed (ms lastTick : Nat) : Nat := (ms + 2 ^ 32 - lastTick) % 2 ^ 32

/-- The condition `ms < lastTick || ms - lastTick >=
static_cast<unsigned>(pimpl->updateInterval)`. -/
def tickDue (ms lastTick : Nat) (updateInterval : Double) : Bool :=
  decide (ms < lastTick) || decide (elapsed ms lastTick ≥ static_cast_unsigned updateInterval)

/-- The condition `pimpl->updateInterval - (ms - lastTick) > 5` of the `else if`. -/
def sleepDue (ms lastTick : Nat) (updateInterval : Double) : Bool :=
  decide (updateInterval - ((elapsed ms lastTick : Nat) : Double) > 5)

/-- The block `if (pimpl->graphics && graphics().begin()) { try { draw(); } catch (...)
{ graphics().end(); throw; } graphics().end(); }`. -/
def renderScope {U : Type} (env : Env U) (s : ShowState U) : Step U :=
  if s.win.hasGraphics then
    if env.begin s.user then
      let d := s.callHook Event.draw (env.draw s.user)
      ⟨Event.graphicsBegin true :: d.events ++ [Event.graphicsEnd], d.state, d.raised⟩
    else
      s.log (Event.graphicsBegin false)
  else
    ⟨[], s, none⟩

/-- The block `if (needsRedraw()) { ...; glfwSwapBuffers(); }`. -/
def redraw {U : Type} (env : Env U) (s : ShowState U) : Step U :=
  let r := env.needsRedraw s.user
  (s.callHook Event.needsRedraw r).andThen fun s =>
    match r.result with
    | .ok true => (renderScope env s).andThen fun s => s.log Event.swapBuffers
    | _ => ⟨[], s, none⟩

/-- The statement `if (GosusDarkSide::oncePerTick) GosusDarkSide::oncePerTick();`. -/
def callOncePerTick {U : Type} (env : Env U) (s : ShowState U) : Step U :=
  match env.oncePerTick with
  | some hook => s.callHook Event.oncePerTick (hook s.user)
  | none => ⟨[], s, none⟩

/-- The statement `if (input().mouseX() >= 0 && input().mouseY() >= 0) SendMessage(handle(),
WM_SETCURSOR, ...)`. -/
def setCursorIf {U : Type} (env : Env U) (s : ShowState U) : Step U :=
  if env.mouseInside s.user then s.log Event.setCursor else ⟨[], s, none⟩

/-- The statements of a tick after the call of `update()`. -/
def restOfTick {U : Type} (env : Env U) (s : ShowState U) : Step U :=
  (redraw env s).andThen fun s => callOncePerTick env s

/-- The statements of a tick from the call of `update()` on. -/
def fromUpdate {U : Type} (env : Env U) (ms : Nat) (s : ShowState U) : Step U :=
  (s.callHook (Event.update ms) (env.update s.user)).andThen fun s => restOfTick env s

/-- The body of the `if` of the loop, a tick, entered with the clock reading `ms`. -/
def tick {U : Type} (env : Env U) (ms : Nat) (s : ShowState U) : Step U :=
  let s := { s with lastTick := ms }
  (s.callHook Event.inputUpdate (env.inputUpdate s.user)).andThen fun s =>
    (setCursorIf env s).andThen fun s => fromUpdate env ms s

/-- One pass through the body of `while (!pimpl->closed)`. -/
def iteration {U : Type} (env : Env U) (s : ShowState U) : Step U :=
  let ms := env.milliseconds s.calls % 2 ^ 32
  let s := { s with calls := s.calls + 1 }
  (s.log (Event.milliseconds ms)).andThen fun s =>
    if tickDue ms s.lastTick s.win.updateInterval then
      tick env ms s
    else if sleepDue ms s.lastTick s.win.updateInterval then
      s.log (Event.sleep 5)
    else
      ⟨[], s, none⟩

/-- How a run of `show` ended. -/
inductive Outcome where
  | returned
  | threw (e : Exn)
  | stillRunning
deriving DecidableEq, Repr

/-- A run of `show`: the steps taken, the state left, and how it ended. -/
structure ShowResult (U : Type) where
  events : List Event
  state : ShowState U
  outcome : Outcome

/-- The loop `while (!pimpl->closed) { ... }` inside `try { ... } catch (...) { close();
throw; }`, run for at most `fuel` passes. -/
def showLoop {U : Type} (env : Env U) : Nat → ShowState U → ShowResult U
  | 0, s => if s.win.closed then ⟨[], s, Outcome.returned⟩ else ⟨[], s, Outcome.stillRunning⟩
  | fuel + 1, s =>
    if s.win.closed then ⟨[], s, Outcome.returned⟩
    else
      let it := iteration env s
      match it.raised with
      | some e =>
        ⟨it.events ++ [Event.close], { it.state with win := it.state.win.close },
          Outcome.threw e⟩
      | none =>
        let r := showLoop env fuel it.state
        ⟨it.events ++ r.events, r.state, r.outcome⟩

/-- `Window::show()`, run for at most `fuel` passes of its loop. -/
def Window.show {U : Type} (env : Env U) (fuel : Nat) (w : Window) (user : U) :
    ShowResult U :=
  let w := { w with visible := true }
  let r := showLoop env fuel ⟨w, user, 0, 0⟩
  ⟨Event.showWindow :: r.events, r.state, r.outcome⟩

/-- What no step of `show` after the clock reading changes, except for closing the window:
`t` agrees with `s` on `lastTick`, on the number of clock readings, on the update interval
and on the graphics object, and is closed if `s` was. -/
def ShowState.Frames {U : Type} (s t : ShowState U) : Prop :=
  t.lastTick = s.lastTick ∧ t.calls = s.calls ∧
    t.win.updateInterval = s.win.updateInterval ∧ t.win.hasGraphics = s.win.hasGraphics ∧
    (s.win.closed = true → t.win.closed = true)

/-- Whether a step can occur inside a tick entered with the clock reading `ms`. -/
def Event.fromTick (ms : Nat) : Event → Bool
  | .showWindow => false
  | .milliseconds _ => false
  | .sleep _ => false
  | .update t => decide (t = ms)
  | _ => true

/-- Whether a step can occur in a tick after the call of `update()`. -/
def Event.afterUpdate : Event → Bool
  | .needsRedraw | .graphicsBegin _ | .draw | .graphicsEnd | .swapBuffers | .oncePerTick
  | .close => true
  | _ => false

/-- A hook call that does nothing and returns normally. -/
def quietHook {U : Type} (u : U) : HookResult U Unit := ⟨u, false, .ok ()⟩

/-- An example surrounding over the user state `Nat`: the given clock, an input update that
does nothing, the mouse outside the window, an `update()` that counts its calls, a
`needsRedraw()` that reports `true`, a `begin()` that succeeds, a `draw()` that does nothing,
and no `oncePerTick` handler. -/
def exampleEnv (clock : Nat → Nat) : Env Nat where
  milliseconds := clock
  inputUpdate := quietHook
  mouseInside := fun _ => false
  update := fun u => ⟨u + 1, false, .ok ()⟩
  needsRedraw := fun u => ⟨u, false, .ok true⟩
  begin := fun _ => true
  draw := quietHook
  oncePerTick := none

/-- The example surrounding with an `update()` that calls `close()`. -/
def closingEnv (clock : Nat → Nat) : Env Nat :=
  { exampleEnv clock with update := fun u => ⟨u + 1, true, .ok ()⟩ }

/-- The example surrounding with an `update()` that raises the exception `7`. -/
def updateFailsEnv (clock : Nat → Nat) : Env Nat :=
  { exampleEnv clock with update := fun u => ⟨u + 1, false, .error 7⟩ }

/-- The example surrounding with a `needsRedraw()` that raises the exception `7`. -/
def needsRedrawFailsEnv (clock : Nat → Nat) : Env Nat :=
  { exampleEnv clock with needsRedraw := fun u => ⟨u, false, .error 7⟩ }

/-- The example surrounding with a `draw()` that raises the exception `7`. -/
def drawFailsEnv (clock : Nat → Nat) : Env Nat :=
  { exampleEnv clock with draw := fun u => ⟨u, false, .error 7⟩ }

/-- The example surrounding with a `needsRedraw()` that reports `false`. -/
def noRedrawEnv (clock : Nat → Nat) : Env Nat :=
  { exampleEnv clock with needsRedraw := fun u => ⟨u, false, .ok false⟩ }

/-- The example surrounding with a `begin()` that fails. -/
def beginFailsEnv (clock : Nat → Nat) : Env Nat :=
  { exampleEnv clock with begin := fun _ => false }

/-- An example window: open, with a graphics object, with the given update interval. -/
def exampleWindow (updateInterval : Double) : Window :=
  ⟨updateInterval, false, true, true, false⟩

/-- The state `show` enters its loop with, for the example window and the user state `0`. -/
def exampleStart (updateInterval : Double) : ShowState Nat :=
  ⟨exampleWindow updateInterval, 0, 0, 0⟩

/-- A pass performed a tick when `input().update()` was called in it, the first statement
of the tick after the assignment to `lastTick`. -/
def ticked (events : List Event) : Prop := Event.inputUpdate ∈ events

instance (events : List Event) : Decidable (ticked events) :=
  inferInstanceAs (Decidable (Event.inputUpdate ∈ events))

/-- The user state `update()` is called on in a tick entered with user state `u`. -/
def Env.userAtUpdate {U : Type} (env : Env U) (u : U) : U := (env.inputUpdate u).user

/-- The user state `needsRedraw()` is called on in a tick entered with user state `u`. -/
def Env.userAtNeedsRedraw {U : Type} (env : Env U) (u : U) : U :=
  (env.update (env.userAtUpdate u)).user

/-- The user state `draw()` is called on in a tick entered with user state `u`. -/
def Env.userAtDraw {U : Type} (env : Env U) (u : U) : U :=
  (env.needsRedraw (env.userAtNeedsRedraw u)).user

/-- The state in which a pass that performs a tick calls `update()`, when the input update
returned normally. -/
def stateAtUpdate {U : Type} (env : Env U) (s : ShowState U) : ShowState U :=
  ({ s with calls := s.calls + 1, lastTick := env.milliseconds s.calls % 2 ^ 32 } :
    ShowState U).after (env.inputUpdate s.user)

/-- The state in which such a pass calls `needsRedraw()`, when `update()` returned
normally. -/
def stateAtNeedsRedraw {U : Type} (env : Env U) (s : ShowState U) : ShowState U :=
  (stateAtUpdate env s).after (env.update (env.userAtUpdate s.user))

/-- The state in which such a pass calls `draw()`, when `needsRedraw()` reported `true` and
`begin()` succeeded. -/
def stateAtDraw {U : Type} (env : Env U) (s : ShowState U) : ShowState U :=
  (stateAtNeedsRedraw env s).after (env.needsRedraw (env.userAtNeedsRedraw s.user))

/-- The state such a pass is in when `draw()` has returned or raised. -/
def stateAfterDraw {U : Type} (env : Env U) (s : ShowState U) : ShowState U :=
  (stateAtDraw env s).after (env.draw (env.userAtDraw s.user))

/-- The steps of a pass that performs a tick, from the clock reading `ms` up to and including
the call of `update()`, for a tick entered with user state `u` whose input update returned
normally. -/
def eventsToUpdate {U : Type} (env : Env U) (ms : Nat) (u : U) : List Event :=
  [Event.milliseconds ms, Event.inputUpdate] ++ closeIf (env.inputUpdate u).calledClose ++
    (if env.mouseInside (env.userAtUpdate u) then [Event.setCursor] else []) ++
    [Event.update ms] ++ closeIf (env.update (env.userAtUpdate u)).calledClose

/-- The steps of such a pass up to and including the call of `needsRedraw()`, when
`update()` returned normally. -/
def eventsToNeedsRedraw {U : Type} (env : Env U) (ms : Nat) (u : U) : List Event :=
  eventsToUpdate env ms u ++ [Event.needsRedraw] ++
    closeIf (env.needsRedraw (env.userAtNeedsRedraw u)).calledClose

/-- The steps of such a pass up to and including the call of `draw()`, when `needsRedraw()`
reported `true` and `begin()` succeeded. -/
def eventsToDraw {U : Type} (env : Env U) (ms : Nat) (u : U) : List Event :=
  eventsToNeedsRedraw env ms u ++ [Event.graphicsBegin true, Event.draw] ++
    closeIf (env.draw (env.userAtDraw u)).calledClose

/-- The clock readings at which `update()` was called, in order. -/
def updateTimes (events : List Event) : List Nat :=
  events.filterMap fun ev =>
    match ev with
    | Event.update ms => some ms
    | _ => none

/-- A clock that starts at `t0` and advances by `step` with every reading. -/
def fixedStepClock (t0 step : Nat) : Nat → Nat := fun k => t0 + k * step

/-- `Window::Window(width, height, fullscreen, updateInterval)`, when it returns: `Impl()`
initialises `closed(false)`, GLFW is initialised and the window opened, the `Graphics`
object is created and the update interval stored. -/
def Window.ctor (_width _height : Nat) (_fullscreen : Bool) (updateInterval : Double) :
    Window :=
  ⟨updateInterval, false, true, true, false⟩

/-- `Window::setCaption(value)`: `SetWindowText(handle(), value.c_str())`; no member of
`Impl` changes. -/
def Window.setCaption (w : Window) (_value : String) : Window := w

/-- `Window::handleMessage(message, wparam, lparam)`: the body is commented out but for
`return 0`. Returns the window and the result. -/
def Window.handleMessage (w : Window) (_message _wparam _lparam : Nat) : Window × Nat :=
  (w, 0)

/-- The operations of `Window` that are not `const`. -/
inductive WindowOp (U : Type) where
  | close
  | runShow (env : Env U) (fuel : Nat) (user : U)
  | setCaption (value : String)
  | handleMessage (message wparam lparam : Nat)

/-- The window after an operation. -/
def Window.apply {U : Type} (w : Window) : WindowOp U → Window
  | .close => w.close
  | .runShow env fuel user => (Window.show env fuel w user).state.win
  | .setCaption value => w.setCaption value
  | .handleMessage message wparam lparam => (w.handleMessage message wparam lparam).1

/-- The steps of the render block of a tick when no render scope could be begun: the failed
`begin()` when there is a graphics object, nothing otherwise. -/
def eventsNotBegun (hasGraphics : Bool) : List Event :=
  if hasGraphics then [Event.graphicsBegin false] else []

/-! ## Lemmas on the dispatch -/

theorem draw_temp_eq_resume (img : Image) (x y : Double) (z : ZPos) (factorX factorY : Double)
    (angle : Double) (centerX centerY : Double) (c1 c2 c3 c4 : Color) (mode : AlphaMode)
    (l : List DrawArg) :
    img.draw_temp x y z factorX factorY angle centerX centerY c1 c2 c3 c4 mode l =
      img.resume ⟨x, y, z, factorX, factorY, angle, centerX, centerY, c1, c2, c3, c4, mode⟩ l :=
  rfl

theorem resume_nil (img : Image) (q : DrawCall) : img.resume q [] = q := rfl

theorem resume_cons (img : Image) (q : DrawCall) (m : DrawArg) (l : List DrawArg) :
    img.resume q (m :: l) = img.resume (img.resume q [m]) l := by
  cases m <;> rfl

theorem resume_append (img : Image) (q : DrawCall) (l₁ l₂ : List DrawArg) :
    img.resume q (l₁ ++ l₂) = img.resume (img.resume q l₁) l₂ := by
  induction l₁ generalizing q with
  | nil => rfl
  | cons m l ih =>
    rw [List.cons_append, resume_cons, ih, ← resume_cons]

theorem draw_eq_resume (img : Image) (x y : Double) (z : ZPos) (mods : List DrawArg) :
    img.draw x y z mods = img.resume (DrawCall.initial x y z) mods := by
  simp only [Image.draw, draw_temp_eq_resume, DrawCall.initial]
  norm_num

theorem DrawCall.ext_value {r s : DrawCall} (h : ∀ g, r.value g = s.value g) : r = s := by
  have h1 := h .position
  have h2 := h .depth
  have h3 := h .scale
  have h4 := h .angle
  have h5 := h .center
  have h6 := h .colors
  have h7 := h .mode
  cases r; cases s
  simp only [DrawCall.value, GroupValue.pair.injEq, GroupValue.single.injEq,
    GroupValue.corners.injEq, GroupValue.blend.injEq] at h1 h2 h3 h4 h5 h6 h7
  simp only [DrawCall.mk.injEq]
  tauto

theorem governs_eq_isSome (img : Image) (m : DrawArg) (g : Group) :
    m.governs g = (m.gives img g).isSome := by
  cases m <;> cases g <;> rfl

theorem value_resume_single (img : Image) (q : DrawCall) (m : DrawArg) (g : Group) :
    (img.resume q [m]).value g = (m.gives img g).getD (q.value g) := by
  cases m <;> cases g <;> rfl

theorem gives_getD_of_governs (img : Image) (m : DrawArg) (g : Group) (u v : GroupValue)
    (h : m.governs g = true) : (m.gives img g).getD u = (m.gives img g).getD v := by
  rw [governs_eq_isSome img] at h
  cases hg : m.gives img g with
  | none => rw [hg] at h; cases h
  | some val => rfl

theorem gives_getD_of_not_governs (img : Image) (m : DrawArg) (g : Group) (u : GroupValue)
    (h : m.governs g = false) : (m.gives img g).getD u = u := by
  rw [governs_eq_isSome img] at h
  cases hg : m.gives img g with
  | none => rfl
  | some val => rw [hg] at h; cases h

theorem lastGoverning_append_singleton (g : Group) (l : List DrawArg) (m : DrawArg) :
    lastGoverning g (l ++ [m]) = if m.governs g = true then some m else lastGoverning g l := by
  unfold lastGoverning
  rw [List.reverse_append, List.reverse_singleton, List.singleton_append, List.find?_cons]
  cases m.governs g <;> simp

/-- The content of a group after the dispatch: what the last governing modifier gives, or the
content the dispatch started with when no modifier governs the group. -/
theorem value_resume (img : Image) (q : DrawCall) (mods : List DrawArg) (g : Group) :
    (img.resume q mods).value g =
      match lastGoverning g mods with
      | some m => (m.gives img g).getD (q.value g)
      | none => q.value g := by
  induction mods using List.reverseRecOn with
  | nil => rfl
  | append_singleton l m ih =>
    rw [resume_append, value_resume_single, lastGoverning_append_singleton]
    cases hm : m.governs g with
    | true =>
      simp only [if_true]
      exact gives_getD_of_governs img m g _ _ hm
    | false =>
      simp only [Bool.false_eq_true, if_false]
      rw [gives_getD_of_not_governs img m g _ hm, ih]

theorem lastGoverning_eq_none {g : Group} {mods : List DrawArg} :
    lastGoverning g mods = none ↔ ∀ m ∈ mods, m.governs g = false := by
  unfold lastGoverning
  rw [List.find?_eq_none]
  simp

theorem lastGoverning_some {g : Group} {mods : List DrawArg} {m : DrawArg}
    (h : lastGoverning g mods = some m) : m ∈ mods ∧ m.governs g = true := by
  unfold lastGoverning at h
  have hp : m.governs g = true := @List.find?_some DrawArg (fun m => m.governs g) m _ h
  exact ⟨List.mem_reverse.mp (List.mem_of_find?_eq_some h), hp⟩

theorem resume_swap (img : Image) (q : DrawCall) (a b : DrawArg) (h : ¬ a.overlaps b) :
    img.resume (img.resume q [a]) [b] = img.resume (img.resume q [b]) [a] := by
  apply DrawCall.ext_value
  intro g
  rw [value_resume_single, value_resume_single, value_resume_single, value_resume_single]
  cases ha : a.governs g with
  | false =>
    rw [gives_getD_of_not_governs img a g _ ha, gives_getD_of_not_governs img a g _ ha]
  | true =>
    cases hb : b.governs g with
    | false =>
      rw [gives_getD_of_not_governs img b g _ hb, gives_getD_of_not_governs img b g _ hb]
    | true => exact absurd ⟨g, ha, hb⟩ h

theorem resume_perm (img : Image) {mods mods' : List DrawArg} (hp : mods.Perm mods') :
    mods.Pairwise (fun a b => ¬ a.overlaps b) →
      ∀ q : DrawCall, img.resume q mods = img.resume q mods' := by
  have symm : ∀ {a b : DrawArg}, ¬ a.overlaps b → ¬ b.overlaps a := by
    intro a b h ⟨g, hb, ha⟩
    exact h ⟨g, ha, hb⟩
  induction hp with
  | nil => intro _ q; rfl
  | cons m hperm ih =>
    intro hpw q
    rename_i l₁ l₂
    rw [resume_cons img q m l₁, resume_cons img q m l₂, ih (List.Pairwise.of_cons hpw)]
  | swap a b l =>
    intro hpw q
    have hab : ¬ b.overlaps a := (List.pairwise_cons.mp hpw).1 a (List.mem_cons_self a l)
    rw [resume_cons img q b (a :: l), resume_cons img _ a l, resume_cons img q a (b :: l),
      resume_cons img _ b l, resume_swap img q b a hab]
  | trans h₁ _ ih₁ ih₂ =>
    intro hpw q
    rw [ih₁ hpw q, ih₂ ((h₁.pairwise_iff symm).mp hpw) q]

theorem resume_earlier_duplicate (img : Image) (q : DrawCall) (m : DrawArg)
    (mid : List DrawArg) :
    img.resume (img.resume (img.resume q [m]) mid) [m] =
      img.resume (img.resume q mid) [m] := by
  apply DrawCall.ext_value
  intro g
  rw [value_resume_single, value_resume_single]
  cases hm : m.governs g with
  | true => exact gives_getD_of_governs img m g _ _ hm
  | false =>
    have h1 : (img.resume q [m]).value g = q.value g := by
      rw [value_resume_single, gives_getD_of_not_governs img m g _ hm]
    rw [gives_getD_of_not_governs img m g _ hm, gives_getD_of_not_governs img m g _ hm,
      value_resume img (img.resume q [m]) mid g, value_resume img q mid g, h1]

/-! ## Theorems on `Image::draw` -/

/-- C1 (counterexample): `Position(1, 2)` and `PositionOfCenter(3, 4)` are modifiers of two
different types, yet the two orders of passing them resolve to different calls: the later
one decides `(x, y)`. -/
theorem draw_order_matters_for_distinct_types :
    (List.map DrawArg.kind [DrawArg.Position ⟨1, 2⟩, DrawArg.PositionOfCenter ⟨3, 4⟩]).Nodup ∧
    List.Perm [DrawArg.Position ⟨1, 2⟩, DrawArg.PositionOfCenter ⟨3, 4⟩]
      [DrawArg.PositionOfCenter ⟨3, 4⟩, DrawArg.Position ⟨1, 2⟩] ∧
    (Image.mk 4 2).draw 0 0 0 [DrawArg.Position ⟨1, 2⟩, DrawArg.PositionOfCenter ⟨3, 4⟩] =
      ⟨3, 4, 0, 1, 1, 0, 1/2, 1/2, Color.WHITE, Color.WHITE, Color.WHITE, Color.WHITE,
        AlphaMode.Default⟩ ∧
    (Image.mk 4 2).draw 0 0 0 [DrawArg.PositionOfCenter ⟨3, 4⟩, DrawArg.Position ⟨1, 2⟩] =
      ⟨1, 2, 0, 1, 1, 0, 1/2, 1/2, Color.WHITE, Color.WHITE, Color.WHITE, Color.WHITE,
        AlphaMode.Default⟩ ∧
    (Image.mk 4 2).draw 0 0 0 [DrawArg.Position ⟨1, 2⟩, DrawArg.PositionOfCenter ⟨3, 4⟩] ≠
      (Image.mk 4 2).draw 0 0 0 [DrawArg.PositionOfCenter ⟨3, 4⟩, DrawArg.Position ⟨1, 2⟩] :=
  ⟨by decide, List.Perm.swap _ _ _, by norm_num [Image.draw, Image.draw_temp],
    by norm_num [Image.draw, Image.draw_temp], by decide⟩

/-- C1 (amended): when no two modifiers of the list govern a common parameter group, every
permutation of the list resolves to the same canonical `draw_temp` parameter tuple. -/
theorem draw_perm_of_no_overlap (img : Image) (x y : Double) (z : ZPos)
    (mods mods' : List DrawArg) (h : mods.Pairwise (fun a b => ¬ a.overlaps b))
    (hp : mods.Perm mods') : img.draw x y z mods = img.draw x y z mods' := by
  rw [draw_eq_resume, draw_eq_resume]
  exact resume_perm img hp h _

theorem draw_perm_of_no_overlap_witness :
    (Image.mk 4 2).draw 7 8 9
        [DrawArg.Rotate ⟨90⟩, DrawArg.PositionOfCenter ⟨3, 4⟩, DrawArg.Color ⟨5⟩] =
      (Image.mk 4 2).draw 7 8 9
        [DrawArg.Color ⟨5⟩, DrawArg.Rotate ⟨90⟩, DrawArg.PositionOfCenter ⟨3, 4⟩] :=
  draw_perm_of_no_overlap (Image.mk 4 2) 7 8 9
    [DrawArg.Rotate ⟨90⟩, DrawArg.PositionOfCenter ⟨3, 4⟩, DrawArg.Color ⟨5⟩]
    [DrawArg.Color ⟨5⟩, DrawArg.Rotate ⟨90⟩, DrawArg.PositionOfCenter ⟨3, 4⟩]
    (by decide)
    ((List.Perm.swap _ _ _).trans (List.Perm.cons _ (List.Perm.swap _ _ _))).symm

/-- C2: the resolved rotation centre is `(0.5, 0.5)` whenever the modifier list contains a
`PositionOfCenter`, wherever it stands and whatever else is in the list, and it is the
default `(0, 0)` when the list contains none. -/
theorem center_of_PositionOfCenter (img : Image) (x y : Double) (z : ZPos)
    (mods : List DrawArg) :
    ((∃ pos, DrawArg.PositionOfCenter pos ∈ mods) →
      ((img.draw x y z mods).centerX, (img.draw x y z mods).centerY) = (0.5, 0.5)) ∧
    ((¬ ∃ pos, DrawArg.PositionOfCenter pos ∈ mods) →
      ((img.draw x y z mods).centerX, (img.draw x y z mods).centerY) = (0, 0)) := by
  have key := value_resume img (DrawCall.initial x y z) mods .center
  rw [← draw_eq_resume] at key
  cases h : lastGoverning .center mods with
  | none =>
    rw [h] at key
    have hno := lastGoverning_eq_none.mp h
    simp only [DrawCall.value, DrawCall.initial, GroupValue.pair.injEq] at key
    refine ⟨?_, ?_⟩
    · rintro ⟨pos, hpos⟩
      have := hno _ hpos
      simp [DrawArg.governs] at this
    · intro _
      rw [key.1, key.2]
  | some m =>
    rw [h] at key
    obtain ⟨hm, hg⟩ := lastGoverning_some h
    cases m with
    | PositionOfCenter pos =>
      simp only [DrawCall.value, DrawArg.gives, Option.getD_some, GroupValue.pair.injEq] at key
      refine ⟨?_, ?_⟩
      · intro _
        rw [key.1, key.2]
      · intro hne
        exact absurd ⟨pos, hm⟩ hne
    | _ => simp [DrawArg.governs] at hg

theorem center_of_PositionOfCenter_witness :
    (((Image.mk 4 2).draw 7 8 9
        [DrawArg.Scale ⟨2, 2⟩, DrawArg.PositionOfCenter ⟨3, 4⟩, DrawArg.Position ⟨1, 1⟩]).centerX,
      ((Image.mk 4 2).draw 7 8 9
        [DrawArg.Scale ⟨2, 2⟩, DrawArg.PositionOfCenter ⟨3, 4⟩, DrawArg.Position ⟨1, 1⟩]).centerY)
      = (0.5, 0.5) ∧
    (((Image.mk 4 2).draw 7 8 9 [DrawArg.Rotate ⟨90⟩, DrawArg.Position ⟨1, 1⟩]).centerX,
      ((Image.mk 4 2).draw 7 8 9 [DrawArg.Rotate ⟨90⟩, DrawArg.Position ⟨1, 1⟩]).centerY)
      = (0, 0) :=
  ⟨(center_of_PositionOfCenter (Image.mk 4 2) 7 8 9
      [DrawArg.Scale ⟨2, 2⟩, DrawArg.PositionOfCenter ⟨3, 4⟩, DrawArg.Position ⟨1, 1⟩]).1
      ⟨⟨3, 4⟩, by decide⟩,
   (center_of_PositionOfCenter (Image.mk 4 2) 7 8 9
      [DrawArg.Rotate ⟨90⟩, DrawArg.Position ⟨1, 1⟩]).2
      (by rintro ⟨pos, hpos⟩; simp at hpos)⟩

/-- C3: on an image of intrinsic size `(W, H)` with `W > 0` and `H > 0`, the single modifier
`ScaleAbsolute(w, h)` resolves to `factorX = w / W` and `factorY = h / H`, and supplying
`ScaleAbsolute(w, h)` twice resolves to the same call as supplying it once: alone, and also
inside a longer modifier list, where the earlier of the two occurrences can be dropped. -/
theorem scaleAbsolute_factors (img : Image) (x y : Double) (z : ZPos) (w h : Double)
    (_hW : 0 < img.width) (_hH : 0 < img.height) :
    (img.draw x y z [DrawArg.ScaleAbsolute ⟨w, h⟩]).factorX = w / (img.width : Double) ∧
    (img.draw x y z [DrawArg.ScaleAbsolute ⟨w, h⟩]).factorY = h / (img.height : Double) ∧
    img.draw x y z [DrawArg.ScaleAbsolute ⟨w, h⟩, DrawArg.ScaleAbsolute ⟨w, h⟩] =
      img.draw x y z [DrawArg.ScaleAbsolute ⟨w, h⟩] ∧
    ∀ before mid after : List DrawArg,
      img.draw x y z
          (before ++ DrawArg.ScaleAbsolute ⟨w, h⟩ ::
            (mid ++ DrawArg.ScaleAbsolute ⟨w, h⟩ :: after)) =
        img.draw x y z (before ++ (mid ++ DrawArg.ScaleAbsolute ⟨w, h⟩ :: after)) := by
  refine ⟨rfl, rfl, rfl, ?_⟩
  intro before mid after
  rw [draw_eq_resume, draw_eq_resume, resume_append, resume_append, resume_cons,
    resume_append, resume_append, resume_cons img _ _ after, resume_cons img _ _ after,
    resume_earlier_duplicate]

theorem scaleAbsolute_factors_witness :
    ((Image.mk 4 2).draw 0 0 0 [DrawArg.ScaleAbsolute ⟨8, 6⟩]).factorX = 8 / ((4 : Nat) : Double) ∧
    ((Image.mk 4 2).draw 0 0 0 [DrawArg.ScaleAbsolute ⟨8, 6⟩]).factorY = 6 / ((2 : Nat) : Double) :=
  have h := scaleAbsolute_factors (Image.mk 4 2) 0 0 0 8 6 (by decide) (by decide)
  ⟨h.1, h.2.1⟩

/-- C4: a bare `Color` modifier `c` resolves all four corner colours to `c`; a
`ColorSet(a, b, d, e)` resolves the corners to exactly `(a, b, d, e)`, so four pairwise
distinct colours stay pairwise distinct, each in its position. -/
theorem color_corners (img : Image) (x y : Double) (z : ZPos) (c a b d e : Color) :
    ((img.draw x y z [DrawArg.Color c]).c1 = c ∧ (img.draw x y z [DrawArg.Color c]).c2 = c ∧
      (img.draw x y z [DrawArg.Color c]).c3 = c ∧ (img.draw x y z [DrawArg.Color c]).c4 = c) ∧
    ((img.draw x y z [DrawArg.ColorSet (ColorSet.new a b d e)]).c1,
      (img.draw x y z [DrawArg.ColorSet (ColorSet.new a b d e)]).c2,
      (img.draw x y z [DrawArg.ColorSet (ColorSet.new a b d e)]).c3,
      (img.draw x y z [DrawArg.ColorSet (ColorSet.new a b d e)]).c4) = (a, b, d, e) ∧
    ([a, b, d, e].Pairwise (fun p q => p ≠ q) →
      [(img.draw x y z [DrawArg.ColorSet (ColorSet.new a b d e)]).c1,
        (img.draw x y z [DrawArg.ColorSet (ColorSet.new a b d e)]).c2,
        (img.draw x y z [DrawArg.ColorSet (ColorSet.new a b d e)]).c3,
        (img.draw x y z [DrawArg.ColorSet (ColorSet.new a b d e)]).c4].Pairwise
          (fun p q => p ≠ q)) :=
  ⟨⟨rfl, rfl, rfl, rfl⟩, rfl, fun h => h⟩

theorem color_corners_witness :
    [((Image.mk 4 2).draw 0 0 0 [DrawArg.ColorSet (ColorSet.new ⟨1⟩ ⟨2⟩ ⟨3⟩ ⟨4⟩)]).c1,
      ((Image.mk 4 2).draw 0 0 0 [DrawArg.ColorSet (ColorSet.new ⟨1⟩ ⟨2⟩ ⟨3⟩ ⟨4⟩)]).c2,
      ((Image.mk 4 2).draw 0 0 0 [DrawArg.ColorSet (ColorSet.new ⟨1⟩ ⟨2⟩ ⟨3⟩ ⟨4⟩)]).c3,
      ((Image.mk 4 2).draw 0 0 0 [DrawArg.ColorSet (ColorSet.new ⟨1⟩ ⟨2⟩ ⟨3⟩ ⟨4⟩)]).c4].Pairwise
        (fun p q => p ≠ q) :=
  (color_corners (Image.mk 4 2) 0 0 0 ⟨0⟩ ⟨1⟩ ⟨2⟩ ⟨3⟩ ⟨4⟩).2.2 (by decide)

/-- C5: last one wins. For every modifier list and every parameter group (position, scale
factors, angle, corner colours, blend mode, z, and the rotation centre as well), if `m` is
the last modifier of the list, in left-to-right order, that governs the group, then the
resolved content of the group is the value `m` gives to it. -/
theorem last_modifier_wins (img : Image) (x y : Double) (z : ZPos) (mods : List DrawArg)
    (g : Group) (m : DrawArg) (h : lastGoverning g mods = some m) :
    m.gives img g = some ((img.draw x y z mods).value g) := by
  have key := value_resume img (DrawCall.initial x y z) mods g
  rw [← draw_eq_resume, h] at key
  have hg := (lastGoverning_some h).2
  rw [governs_eq_isSome img] at hg
  cases hv : m.gives img g with
  | none => rw [hv] at hg; cases hg
  | some v =>
    simp only [hv, Option.getD_some] at key
    rw [key]

theorem last_modifier_wins_witness :
    (DrawArg.PositionOfCenter ⟨3, 4⟩).gives (Image.mk 4 2) Group.position =
      some (((Image.mk 4 2).draw 7 8 9
        [DrawArg.Position ⟨1, 2⟩, DrawArg.Rotate ⟨10⟩, DrawArg.PositionOfCenter ⟨3, 4⟩,
          DrawArg.Rotate ⟨20⟩]).value Group.position) :=
  last_modifier_wins (Image.mk 4 2) 7 8 9
    [DrawArg.Position ⟨1, 2⟩, DrawArg.Rotate ⟨10⟩, DrawArg.PositionOfCenter ⟨3, 4⟩,
      DrawArg.Rotate ⟨20⟩]
    Group.position (DrawArg.PositionOfCenter ⟨3, 4⟩) (by decide)

/-- C6: every parameter group that no modifier of the list governs keeps its initial value
in the resolved call (`x`, `y`, `z` as passed, factors `1`, angle `0`, centre `(0, 0)`, all
four corners white, default blend mode); in particular a single modifier leaves every group
it does not govern untouched, and the empty list resolves to the initial tuple. -/
theorem ungoverned_group_keeps_initial (img : Image) (x y : Double) (z : ZPos)
    (mods : List DrawArg) (g : Group) :
    ((∀ m ∈ mods, m.governs g = false) →
      (img.draw x y z mods).value g = (DrawCall.initial x y z).value g) ∧
    (∀ m : DrawArg, m.governs g = false →
      (img.draw x y z [m]).value g = (DrawCall.initial x y z).value g) ∧
    img.draw x y z [] =
      ⟨x, y, z, 1, 1, 0, 0, 0, Color.WHITE, Color.WHITE, Color.WHITE, Color.WHITE,
        AlphaMode.Default⟩ := by
  have main : ∀ l : List DrawArg, (∀ m ∈ l, m.governs g = false) →
      (img.draw x y z l).value g = (DrawCall.initial x y z).value g := by
    intro l hl
    have key := value_resume img (DrawCall.initial x y z) l g
    rw [← draw_eq_resume, lastGoverning_eq_none.mpr hl] at key
    exact key
  refine ⟨main mods, ?_, ?_⟩
  · intro m hm
    apply main
    intro m' hm'
    rw [List.mem_singleton] at hm'
    rw [hm', hm]
  · rw [draw_eq_resume]
    rfl

theorem ungoverned_group_keeps_initial_witness :
    ((Image.mk 4 2).draw 7 8 9 [DrawArg.Rotate ⟨90⟩, DrawArg.Color ⟨5⟩]).value Group.scale =
      (DrawCall.initial 7 8 9).value Group.scale :=
  (ungoverned_group_keeps_initial (Image.mk 4 2) 7 8 9
    [DrawArg.Rotate ⟨90⟩, DrawArg.Color ⟨5⟩] Group.scale).1 (by decide)

/-! ## Lemmas on bit patterns -/

theorem not_val_eq {w : Nat} (a : int_type w) : a.not.val = 2 ^ w - (a.val + 1) := by
  show 2 ^ w - 1 - a.val = 2 ^ w - (a.val + 1)
  omega

theorem testBit_not {w : Nat} (a : int_type w) (i : Nat) :
    a.not.val.testBit i = (decide (i < w) && !a.val.testBit i) := by
  rw [not_val_eq, Nat.testBit_two_pow_sub_succ a.isLt]

theorem testBit_lt_width {w : Nat} (a : int_type w) {i : Nat} (h : a.val.testBit i = true) :
    i < w := by
  by_contra hge
  have hle : 2 ^ w ≤ 2 ^ i := Nat.pow_le_pow_right (by decide) (Nat.le_of_not_lt hge)
  have hlt : a.val < 2 ^ i := Nat.lt_of_lt_of_le a.isLt hle
  rw [Nat.testBit_lt_two_pow hlt] at h
  cases h

theorem nat_or_and_self (a b : Nat) : (a ||| b) &&& b = b := by
  apply Nat.eq_of_testBit_eq
  intro i
  rw [Nat.testBit_and, Nat.testBit_or]
  cases a.testBit i <;> cases b.testBit i <;> rfl

theorem or_and_not {w : Nat} (v f : int_type w) : (v.or f).and f.not = v.and f.not := by
  apply Fin.ext
  show (v.val ||| f.val) &&& f.not.val = v.val &&& f.not.val
  apply Nat.eq_of_testBit_eq
  intro i
  rw [Nat.testBit_and, Nat.testBit_and, Nat.testBit_or, testBit_not]
  cases v.val.testBit i <;> cases f.val.testBit i <;> simp

theorem and_not_eq_self_iff {w : Nat} (v f : int_type w) :
    v.and f.not = v ↔ v.val &&& f.val = 0 := by
  constructor
  · intro h
    have hv : v.val &&& f.not.val = v.val := congrArg Fin.val h
    apply Nat.eq_of_testBit_eq
    intro i
    have hi := congrArg (fun n => Nat.testBit n i) hv
    simp only [Nat.testBit_and, testBit_not] at hi
    rw [Nat.testBit_and, Nat.zero_testBit]
    cases hvi : v.val.testBit i <;> cases hfi : f.val.testBit i <;> simp_all
  · intro h
    apply Fin.ext
    show v.val &&& f.not.val = v.val
    apply Nat.eq_of_testBit_eq
    intro i
    have hi := congrArg (fun n => Nat.testBit n i) h
    simp only [Nat.testBit_and, Nat.zero_testBit] at hi
    rw [Nat.testBit_and, testBit_not]
    cases hvi : v.val.testBit i with
    | false => rfl
    | true =>
      have hlt := testBit_lt_width v hvi
      cases hfi : f.val.testBit i <;> simp_all

theorem int_type_not_not {w : Nat} (a : int_type w) : a.not.not = a := by
  apply Fin.ext
  show 2 ^ w - 1 - (2 ^ w - 1 - a.val) = a.val
  have := a.isLt
  omega

theorem or_right_comm {w : Nat} (v a b : int_type w) : (v.or a).or b = (v.or b).or a := by
  apply Fin.ext
  show v.val ||| a.val ||| b.val = v.val ||| b.val ||| a.val
  apply Nat.eq_of_testBit_eq
  intro i
  simp only [Nat.testBit_or]
  cases v.val.testBit i <;> cases a.val.testBit i <;> cases b.val.testBit i <;> rfl

namespace FlagWrapper

variable {w : Nat}

theorem Add_right_comm (v : FlagWrapper w) (a b : int_type w) :
    (v.Add a).Add b = (v.Add b).Add a := by
  show FlagWrapper.mk ((v.flag.or a).or b) = FlagWrapper.mk ((v.flag.or b).or a)
  rw [or_right_comm]

theorem foldl_Add_Add (v : FlagWrapper w) (a : int_type w) (l : List (int_type w)) :
    l.foldl Add (v.Add a) = (l.foldl Add v).Add a := by
  induction l generalizing v with
  | nil => rfl
  | cons b l ih =>
    rw [List.foldl_cons, List.foldl_cons, Add_right_comm, ih]

theorem ctor_eq_foldAdd (vs : List (int_type w)) : ctor vs = foldAdd vs := by
  induction vs with
  | nil => rfl
  | cons a l ih =>
    show (ctor l).Add a = List.foldl Add (default.Add a) l
    rw [ih, foldl_Add_Add]
    rfl

theorem ctor_perm {vs vs' : List (int_type w)} (h : vs.Perm vs') : ctor vs = ctor vs' := by
  induction h with
  | nil => rfl
  | cons a _ ih =>
    show (ctor _).Add a = (ctor _).Add a
    rw [ih]
  | swap a b l =>
    show ((ctor l).Add a).Add b = ((ctor l).Add b).Add a
    exact Add_right_comm _ _ _
  | trans _ _ ih₁ ih₂ => exact ih₁.trans ih₂

theorem flag_val_foldl_Add (v : FlagWrapper w) (l : List (int_type w)) :
    (l.foldl Add v).flag.val = l.foldl (fun acc f => acc ||| f.val) v.flag.val := by
  induction l generalizing v with
  | nil => rfl
  | cons a l ih =>
    rw [List.foldl_cons, List.foldl_cons, ih]
    rfl

/-! ## Theorems on `FlagWrapper` -/

/-- C7: absorption. For every two `FlagWrapper` values `a` and `b` over the same enumeration,
`((a | b) & b) == b`. -/
theorem or_and_absorb (a b : FlagWrapper w) : ((a.or b).and b).eq b = true := by
  apply decide_eq_true
  apply Fin.ext
  exact nat_or_and_self a.flag.val b.flag.val

/-- C8 (counterexample): over a 32-bit enumeration, the value `1` already holds the flag `1`;
`Add(1)` leaves it at `1` and `Remove(1)` then clears it to `0`, which is not the original
value. -/
theorem Add_then_Remove_loses_flag :
    ((FlagWrapper.mk (1 : int_type 32)).Add 1) = FlagWrapper.mk 1 ∧
    (((FlagWrapper.mk (1 : int_type 32)).Add 1).Remove 1) = FlagWrapper.mk 0 ∧
    (((FlagWrapper.mk (1 : int_type 32)).Add 1).Remove 1) ≠ FlagWrapper.mk 1 := by
  decide

/-- C8 (amended): `v.Add(f)` followed by `v.Remove(f)` leaves `v` with every bit of `f`
cleared, the same value as `v.Remove(f)` alone; this is the original value exactly when `v`
held no bit of `f` before (`v & f` converts to `false`). -/
theorem Add_then_Remove (v : FlagWrapper w) (f : int_type w) :
    (v.Add f).Remove f = v.Remove f ∧
    ((v.Add f).Remove f = v ↔ (v.Mask f).toBool = false) := by
  have h1 : (v.Add f).Remove f = v.Remove f := by
    show FlagWrapper.mk ((v.flag.or f).and f.not) = FlagWrapper.mk (v.flag.and f.not)
    rw [or_and_not]
  refine ⟨h1, ?_⟩
  rw [h1]
  have h2 : v.Remove f = v ↔ v.flag.and f.not = v.flag := by
    constructor
    · intro h
      exact congrArg FlagWrapper.flag h
    · intro h
      show FlagWrapper.mk (v.flag.and f.not) = v
      rw [h]
  rw [h2, and_not_eq_self_iff]
  show v.flag.val &&& f.val = 0 ↔ decide (v.flag.val &&& f.val ≠ 0) = false
  simp

theorem Add_then_Remove_witness :
    ((FlagWrapper.mk (4 : int_type 32)).Add 3).Remove 3 = FlagWrapper.mk 4 :=
  (Add_then_Remove (FlagWrapper.mk (4 : int_type 32)) 3).2.mpr (by decide)

/-- C9: the complement is an involution. For every `FlagWrapper` value `x`, `~(~x) == x`, the
complement being taken on the `w` bits of the underlying integer type. -/
theorem compl_compl (x : FlagWrapper w) : (x.compl.compl).eq x = true := by
  apply decide_eq_true
  exact int_type_not_not x.flag

/-- C10: the variadic constructor applied to `v1, ..., vn` yields the value obtained by
starting from zero and folding the list from the left with `Add`, whose underlying integer is
the bitwise OR of all `vi`; the empty list yields zero, and the result does not depend on the
order of the arguments. -/
theorem ctor_is_fold_of_Add (vs : List (int_type w)) :
    ctor vs = vs.foldl Add default ∧
    (ctor vs).flag.val = vs.foldl (fun acc f => acc ||| f.val) 0 ∧
    (ctor ([] : List (int_type w))).flag.val = 0 ∧
    ∀ vs' : List (int_type w), vs.Perm vs' → ctor vs = ctor vs' := by
  refine ⟨ctor_eq_foldAdd vs, ?_, rfl, fun vs' h => ctor_perm h⟩
  rw [ctor_eq_foldAdd]
  exact flag_val_foldl_Add default vs

theorem ctor_is_fold_of_Add_witness :
    ctor [(1 : int_type 32), 4, 8] = ctor [(8 : int_type 32), 1, 4] :=
  (ctor_is_fold_of_Add [(1 : int_type 32), 4, 8]).2.2.2 [(8 : int_type 32), 1, 4]
    ((List.Perm.cons 1 (List.Perm.swap 8 4 [])).trans (List.Perm.swap 8 1 [4]))

end FlagWrapper

/-! ## More on `FlagWrapper` -/

/-- C11: the boolean conversion of a `FlagWrapper` is `true` if and only if at least one bit
of its underlying integer is set, that is, if and only if it is not the zero value; a
default-constructed `FlagWrapper` converts to `false`. -/
theorem FlagWrapper.toBool_iff_some_bit_set {w : Nat} (v : FlagWrapper w) :
    (v.toBool = true ↔ ∃ i, v.flag.val.testBit i = true) ∧
    (v.toBool = true ↔ v ≠ FlagWrapper.default) ∧
    (FlagWrapper.default : FlagWrapper w).toBool = false := by
  refine ⟨?_, ?_, ?_⟩
  · constructor
    · intro h
      exact Nat.ne_zero_implies_bit_true (of_decide_eq_true h)
    · rintro ⟨i, hi⟩
      apply decide_eq_true
      intro h0
      rw [h0, Nat.zero_testBit] at hi
      cases hi
  · constructor
    · intro h hv
      have h0 : v.flag.val ≠ 0 := of_decide_eq_true h
      rw [hv] at h0
      exact h0 rfl
    · intro h
      apply decide_eq_true
      intro h0
      apply h
      cases v with
      | mk flag =>
        show FlagWrapper.mk flag = FlagWrapper.mk ⟨0, Nat.two_pow_pos w⟩
        congr 1
        exact Fin.ext h0
  · rfl

/-! ## Theorems on `is_DrawModifier` -/

theorem is_DrawModifier_cons (t : CppType) (args : List CppType) :
    is_DrawModifier (t :: args) =
      ((decide (t = CppType.Color) || decide (t = CppType.AlphaMode) ||
        is_base_of_DrawModifier t) && is_DrawModifier args) := by
  cases t <;> simp [is_DrawModifier, is_base_of_DrawModifier, CppType.derivedFromDrawModifier]

/-- C16 (counterexample): the class `DrawModifier` itself is neither `Color` nor `AlphaMode`
nor a type derived from `DrawModifier`, yet the guard accepts the pack consisting of it,
because `std::is_base_of` holds between a class and itself. -/
theorem is_DrawModifier_accepts_base_class :
    is_DrawModifier [CppType.DrawModifier] = true ∧
    ¬ (∀ t ∈ [CppType.DrawModifier],
        t = CppType.Color ∨ t = CppType.AlphaMode ∨ t.derivedFromDrawModifier = true) := by
  decide

/-- C16 (amended): `is_DrawModifier<Args...>::value` is true if and only if every type in
`Args` is `Color`, `AlphaMode`, the class `DrawModifier` itself, or a type derived from
`DrawModifier`; it is true for the empty pack and false as soon as one type is anything
else, for example `double` or `int`. -/
theorem is_DrawModifier_iff (args : List CppType) :
    (is_DrawModifier args = true ↔
      ∀ t ∈ args, t = CppType.Color ∨ t = CppType.AlphaMode ∨ t = CppType.DrawModifier ∨
        t.derivedFromDrawModifier = true) ∧
    is_DrawModifier [] = true ∧
    (∀ front back : List CppType,
      is_DrawModifier (front ++ CppType.double :: back) = false ∧
      is_DrawModifier (front ++ CppType.int :: back) = false) := by
  have main : ∀ l : List CppType, is_DrawModifier l = true ↔
      ∀ t ∈ l, t = CppType.Color ∨ t = CppType.AlphaMode ∨ t = CppType.DrawModifier ∨
        t.derivedFromDrawModifier = true := by
    intro l
    induction l with
    | nil => simp [is_DrawModifier]
    | cons t l ih =>
      rw [is_DrawModifier_cons, Bool.and_eq_true, ih, List.forall_mem_cons]
      simp [is_base_of_DrawModifier, or_assoc]
  have bad : ∀ (t : CppType) (front back : List CppType),
      ¬ (t = CppType.Color ∨ t = CppType.AlphaMode ∨ t = CppType.DrawModifier ∨
        t.derivedFromDrawModifier = true) →
      is_DrawModifier (front ++ t :: back) = false := by
    intro t front back ht
    rw [← Bool.not_eq_true, main]
    intro h
    exact ht (h t (by simp))
  exact ⟨main args, rfl, fun front back =>
    ⟨bad _ front back (by decide), bad _ front back (by decide)⟩⟩

/-! ## Theorems on `imagesFromTiledBitmap` -/

theorem toInt_of_lt {n : Nat} (h : n < 2 ^ 31) : toInt n = (n : Int) := by
  unfold toInt
  have h1 : ((n : Int)) % ((2 ^ 32 : Nat) : Int) = n := by
    apply Int.emod_eq_of_lt <;> omega
  rw [Int.bmod_pos, h1]
  rw [h1]
  norm_num
  omega

theorem foldl_range_push {V : Type} (wrap : Image → V) (tiles : List Image)
    (appendTo : List V) (k : Nat) (hk : k ≤ tiles.length) :
    (List.range k).foldl
        (fun acc i =>
          match tiles.get? i with
          | some tile => acc ++ [wrap tile]
          | none => acc)
        appendTo =
      appendTo ++ (tiles.take k).map wrap := by
  induction k with
  | zero => simp
  | succ k ih =>
    have hlt : k < tiles.length := hk
    rw [List.range_succ, List.foldl_append, ih (Nat.le_of_lt hlt), List.take_succ,
      List.getElem?_eq_getElem hlt]
    simp only [List.foldl_cons, List.foldl_nil, List.get?_eq_getElem?,
      List.getElem?_eq_getElem hlt, Option.toList, List.map_append, List.map_cons,
      List.map_nil, List.append_assoc]

theorem pushTiles_eq {V : Type} (wrap : Image → V) (tiles : List Image) (appendTo : List V)
    (h : tiles.length < 2 ^ 31) : pushTiles wrap tiles appendTo = appendTo ++ tiles.map wrap := by
  unfold pushTiles
  simp only [toInt_of_lt h, Int.toNat_ofNat]
  rw [foldl_range_push wrap tiles appendTo tiles.length (Nat.le_refl _), List.take_length]

/-- C17 (code defect): when `loadTiles` returns `2 ^ 31` tiles, the count `tiles.size()`
does not fit the `int` loop bound `num`, which becomes negative; the loop body never runs
and the container, which held one image, still holds only that image. The documentation of
the function says the images will be appended: the container should have become its old
contents followed by the `2 ^ 31` tiles, which it is not. -/
theorem imagesFromTiledBitmap_int_bound :
    (List.replicate (2 ^ 31) (Image.mk 1 1)).length = 2 ^ 31 ∧
    imagesFromTiledBitmap (fun (_ : Unit) (_ : Unit) _ _ _ => List.replicate (2 ^ 31) (Image.mk 1 1))
      id () () 1 1 false [Image.mk 7 7] = [Image.mk 7 7] ∧
    imagesFromTiledBitmap (fun (_ : Unit) (_ : Unit) _ _ _ => List.replicate (2 ^ 31) (Image.mk 1 1))
      id () () 1 1 false [Image.mk 7 7] ≠
        [Image.mk 7 7] ++ (List.replicate (2 ^ 31) (Image.mk 1 1)).map id := by
  have h : toInt (2 ^ 31) = -(2 ^ 31 : Int) := by decide
  have hcode : imagesFromTiledBitmap
      (fun (_ : Unit) (_ : Unit) _ _ _ => List.replicate (2 ^ 31) (Image.mk 1 1))
      id () () 1 1 false [Image.mk 7 7] = [Image.mk 7 7] := by
    simp only [imagesFromTiledBitmap, pushTiles, List.length_replicate, h]
    rfl
  refine ⟨List.length_replicate _ _, hcode, ?_⟩
  rw [hcode]
  intro heq
  have hlen := congrArg List.length heq
  rw [List.length_append, List.length_map, List.length_replicate, List.length_singleton] at hlen
  omega

/-- Where the number of tiles fits the `int` loop bound, both overloads of
`imagesFromTiledBitmap` do what their documentation says: they append exactly one element
per tile, in the order `loadTiles` returned them, after the container's existing elements,
which are left unchanged, and the length of the container grows by the number of tiles. -/
theorem imagesFromTiledBitmap_appends {G F B V : Type}
    (loadTilesFile : G → F → Int → Int → Bool → List Image)
    (loadTilesBitmap : G → B → Int → Int → Bool → List Image)
    (wrap : Image → V) (graphics : G) (filename : F) (bmp : B) (tileWidth tileHeight : Int)
    (tileable : Bool) (appendTo : List V)
    (hFile : (loadTilesFile graphics filename tileWidth tileHeight tileable).length < 2 ^ 31)
    (hBitmap : (loadTilesBitmap graphics bmp tileWidth tileHeight tileable).length < 2 ^ 31) :
    imagesFromTiledBitmap loadTilesFile wrap graphics filename tileWidth tileHeight tileable
        appendTo =
      appendTo ++ (loadTilesFile graphics filename tileWidth tileHeight tileable).map wrap ∧
    (imagesFromTiledBitmap loadTilesFile wrap graphics filename tileWidth tileHeight tileable
        appendTo).length =
      appendTo.length + (loadTilesFile graphics filename tileWidth tileHeight tileable).length ∧
    imagesFromTiledBitmapOfBitmap loadTilesBitmap wrap graphics bmp tileWidth tileHeight
        tileable appendTo =
      appendTo ++ (loadTilesBitmap graphics bmp tileWidth tileHeight tileable).map wrap ∧
    (imagesFromTiledBitmapOfBitmap loadTilesBitmap wrap graphics bmp tileWidth tileHeight
        tileable appendTo).length =
      appendTo.length + (loadTilesBitmap graphics bmp tileWidth tileHeight tileable).length := by
  have h1 : imagesFromTiledBitmap loadTilesFile wrap graphics filename tileWidth tileHeight
      tileable appendTo =
      appendTo ++ (loadTilesFile graphics filename tileWidth tileHeight tileable).map wrap := by
    unfold imagesFromTiledBitmap
    exact pushTiles_eq wrap (loadTilesFile graphics filename tileWidth tileHeight tileable)
      appendTo hFile
  have h2 : imagesFromTiledBitmapOfBitmap loadTilesBitmap wrap graphics bmp tileWidth
      tileHeight tileable appendTo =
      appendTo ++ (loadTilesBitmap graphics bmp tileWidth tileHeight tileable).map wrap := by
    unfold imagesFromTiledBitmapOfBitmap
    exact pushTiles_eq wrap (loadTilesBitmap graphics bmp tileWidth tileHeight tileable)
      appendTo hBitmap
  refine ⟨h1, ?_, h2, ?_⟩
  · rw [h1, List.length_append, List.length_map]
  · rw [h2, List.length_append, List.length_map]

theorem imagesFromTiledBitmap_appends_witness :
    imagesFromTiledBitmap
        (fun (_ : Unit) (_ : Unit) _ _ _ => [Image.mk 1 1, Image.mk 2 2, Image.mk 3 3])
        id () () 1 1 false [Image.mk 7 7] =
      [Image.mk 7 7, Image.mk 1 1, Image.mk 2 2, Image.mk 3 3] :=
  (imagesFromTiledBitmap_appends
    (fun (_ : Unit) (_ : Unit) _ _ _ => [Image.mk 1 1, Image.mk 2 2, Image.mk 3 3])
    (fun (_ : Unit) (_ : Unit) _ _ _ => [Image.mk 4 4])
    id () () () 1 1 false [Image.mk 7 7] (by norm_num) (by norm_num)).1

/-! ## Theorems on `Window` -/

/-- C18: `close()` is idempotent on the window state: calling it twice leaves the same
state as calling it once, and after any `close()` the closed flag is true, whatever it was
before. -/
theorem Window.close_idempotent (w : Window) :
    w.close.close = w.close ∧ w.close.closed = true ∧ w.close.close.closed = true :=
  ⟨rfl, rfl, rfl⟩

/-! ## Lemmas on the loop of `show` -/

theorem Step.andThen_of_none {U : Type} {a : Step U} (f : ShowState U → Step U)
    (h : a.raised = none) :
    a.andThen f = ⟨a.events ++ (f a.state).events, (f a.state).state, (f a.state).raised⟩ := by
  unfold Step.andThen
  rw [h]

theorem Step.andThen_of_some {U : Type} {a : Step U} (f : ShowState U → Step U) {e : Exn}
    (h : a.raised = some e) : a.andThen f = a := by
  unfold Step.andThen
  rw [h]

theorem ShowState.Frames.refl {U : Type} (s : ShowState U) : s.Frames s :=
  ⟨rfl, rfl, rfl, rfl, fun h => h⟩

theorem ShowState.Frames.trans {U : Type} {s t u : ShowState U} (h₁ : s.Frames t)
    (h₂ : t.Frames u) : s.Frames u :=
  ⟨h₂.1.trans h₁.1, h₂.2.1.trans h₁.2.1, h₂.2.2.1.trans h₁.2.2.1,
    h₂.2.2.2.1.trans h₁.2.2.2.1, fun h => h₂.2.2.2.2 (h₁.2.2.2.2 h)⟩

theorem callHook_frames {U α : Type} (s : ShowState U) (ev : Event) (r : HookResult U α) :
    s.Frames (s.callHook ev r).state := by
  unfold ShowState.callHook ShowState.after ShowState.Frames
  cases r.calledClose <;> simp [Window.close]

theorem andThen_frames {U : Type} {s : ShowState U} {a : Step U} {f : ShowState U → Step U}
    (h₁ : s.Frames a.state) (h₂ : ∀ t : ShowState U, t.Frames (f t).state) :
    s.Frames (a.andThen f).state := by
  cases h : a.raised with
  | none =>
    rw [Step.andThen_of_none f h]
    exact h₁.trans (h₂ _)
  | some e =>
    rw [Step.andThen_of_some f h]
    exact h₁

theorem mem_andThen_events {U : Type} {a : Step U} {f : ShowState U → Step U} {ev : Event}
    (h : ev ∈ (a.andThen f).events) : ev ∈ a.events ∨ ev ∈ (f a.state).events := by
  cases hr : a.raised with
  | none =>
    rw [Step.andThen_of_none f hr] at h
    exact List.mem_append.mp h
  | some e =>
    rw [Step.andThen_of_some f hr] at h
    exact Or.inl h

theorem renderScope_frames {U : Type} (env : Env U) (s : ShowState U) :
    s.Frames (renderScope env s).state := by
  unfold renderScope
  split
  · split
    · exact callHook_frames s Event.draw (env.draw s.user)
    · exact ShowState.Frames.refl s
  · exact ShowState.Frames.refl s

theorem redraw_frames {U : Type} (env : Env U) (s : ShowState U) :
    s.Frames (redraw env s).state := by
  unfold redraw
  apply andThen_frames (callHook_frames s _ _)
  intro t
  split
  · exact andThen_frames (renderScope_frames env t) (fun u => ShowState.Frames.refl u)
  · exact ShowState.Frames.refl t

theorem callOncePerTick_frames {U : Type} (env : Env U) (s : ShowState U) :
    s.Frames (callOncePerTick env s).state := by
  unfold callOncePerTick
  split
  · exact callHook_frames s _ _
  · exact ShowState.Frames.refl s

theorem restOfTick_frames {U : Type} (env : Env U) (s : ShowState U) :
    s.Frames (restOfTick env s).state :=
  andThen_frames (redraw_frames env s) (fun t => callOncePerTick_frames env t)

theorem setCursorIf_state {U : Type} (env : Env U) (s : ShowState U) :
    (setCursorIf env s).state = s := by
  unfold setCursorIf
  split <;> rfl

theorem setCursorIf_raised {U : Type} (env : Env U) (s : ShowState U) :
    (setCursorIf env s).raised = none := by
  unfold setCursorIf
  split <;> rfl

theorem setCursorIf_events {U : Type} (env : Env U) (s : ShowState U) :
    (setCursorIf env s).events = if env.mouseInside s.user then [Event.setCursor] else [] := by
  unfold setCursorIf
  split <;> rfl

theorem fromUpdate_frames {U : Type} (env : Env U) (ms : Nat) (s : ShowState U) :
    s.Frames (fromUpdate env ms s).state :=
  andThen_frames (callHook_frames _ _ _) (fun t => restOfTick_frames env t)

theorem tick_frames {U : Type} (env : Env U) (ms : Nat) (s : ShowState U) :
    ShowState.Frames { s with lastTick := ms } (tick env ms s).state := by
  unfold tick
  apply andThen_frames (callHook_frames _ _ _)
  intro t
  apply andThen_frames
  · rw [setCursorIf_state]
    exact ShowState.Frames.refl t
  · intro u
    exact fromUpdate_frames env ms u

theorem mem_closeIf {b : Bool} {ev : Event} (h : ev ∈ closeIf b) : ev = Event.close := by
  unfold closeIf at h
  cases b <;> simp at h
  exact h

theorem mem_callHook_events {U α : Type} {s : ShowState U} {ev e : Event}
    {r : HookResult U α} (h : e ∈ (s.callHook ev r).events) : e = ev ∨ e = Event.close := by
  unfold ShowState.callHook at h
  rcases List.mem_cons.mp h with h | h
  · exact Or.inl h
  · exact Or.inr (mem_closeIf h)

theorem renderScope_afterUpdate {U : Type} (env : Env U) (s : ShowState U) :
    ∀ e ∈ (renderScope env s).events, e.afterUpdate = true := by
  intro e he
  unfold renderScope at he
  split at he
  · split at he
    · simp only [List.mem_cons, List.mem_append, List.not_mem_nil, or_false] at he
      rcases he with (h | h) | h
      · rw [h]; rfl
      · rcases mem_callHook_events h with h | h <;> rw [h] <;> rfl
      · rw [h]; rfl
    · simp only [ShowState.log, List.mem_singleton] at he
      rw [he]; rfl
  · simp at he

theorem redraw_afterUpdate {U : Type} (env : Env U) (s : ShowState U) :
    ∀ e ∈ (redraw env s).events, e.afterUpdate = true := by
  intro e he
  unfold redraw at he
  rcases mem_andThen_events he with h | h
  · rcases mem_callHook_events h with h | h <;> rw [h] <;> rfl
  · split at h
    · rcases mem_andThen_events h with h | h
      · exact renderScope_afterUpdate env _ e h
      · simp only [ShowState.log, List.mem_singleton] at h
        rw [h]; rfl
    · simp at h

theorem callOncePerTick_afterUpdate {U : Type} (env : Env U) (s : ShowState U) :
    ∀ e ∈ (callOncePerTick env s).events, e.afterUpdate = true := by
  intro e he
  unfold callOncePerTick at he
  split at he
  · rcases mem_callHook_events he with h | h <;> rw [h] <;> rfl
  · simp at he

theorem restOfTick_afterUpdate {U : Type} (env : Env U) (s : ShowState U) :
    ∀ e ∈ (restOfTick env s).events, e.afterUpdate = true := by
  intro e he
  unfold restOfTick at he
  rcases mem_andThen_events he with h | h
  · exact redraw_afterUpdate env s e h
  · exact callOncePerTick_afterUpdate env _ e h

theorem fromTick_of_afterUpdate {e : Event} (ms : Nat) (h : e.afterUpdate = true) :
    e.fromTick ms = true := by
  cases e <;> first | rfl | cases h

theorem tick_fromTick {U : Type} (env : Env U) (ms : Nat) (s : ShowState U) :
    ∀ e ∈ (tick env ms s).events, e.fromTick ms = true := by
  intro e he
  unfold tick at he
  rcases mem_andThen_events he with h | h
  · rcases mem_callHook_events h with h | h <;> rw [h] <;> rfl
  · rcases mem_andThen_events h with h | h
    · rw [setCursorIf_events] at h
      split at h
      · rw [List.mem_singleton.mp h]; rfl
      · simp at h
    · unfold fromUpdate at h
      rcases mem_andThen_events h with h | h
      · rcases mem_callHook_events h with h | h <;> rw [h] <;> simp [Event.fromTick]
      · exact fromTick_of_afterUpdate ms (restOfTick_afterUpdate env _ e h)

theorem tick_events_head {U : Type} (env : Env U) (ms : Nat) (s : ShowState U) :
    Event.inputUpdate ∈ (tick env ms s).events := by
  unfold tick
  simp only []
  cases h : (ShowState.callHook { s with lastTick := ms } Event.inputUpdate
      (env.inputUpdate s.user)).raised with
  | none =>
    rw [Step.andThen_of_none _ h]
    apply List.mem_append_left
    exact List.mem_cons_self _ _
  | some e =>
    rw [Step.andThen_of_some _ h]
    exact List.mem_cons_self _ _

theorem iteration_of_tickDue {U : Type} (env : Env U) (s : ShowState U)
    (h : tickDue (env.milliseconds s.calls % 2 ^ 32) s.lastTick s.win.updateInterval = true) :
    iteration env s =
      ⟨Event.milliseconds (env.milliseconds s.calls % 2 ^ 32) ::
          (tick env (env.milliseconds s.calls % 2 ^ 32) { s with calls := s.calls + 1 }).events,
        (tick env (env.milliseconds s.calls % 2 ^ 32) { s with calls := s.calls + 1 }).state,
        (tick env (env.milliseconds s.calls % 2 ^ 32) { s with calls := s.calls + 1 }).raised⟩ := by
  unfold iteration
  simp only [ShowState.log]
  rw [Step.andThen_of_none _ rfl]
  simp only [h, if_true, List.singleton_append]

theorem iteration_of_not_tickDue {U : Type} (env : Env U) (s : ShowState U)
    (h : tickDue (env.milliseconds s.calls % 2 ^ 32) s.lastTick s.win.updateInterval = false) :
    iteration env s =
      ⟨Event.milliseconds (env.milliseconds s.calls % 2 ^ 32) ::
          (if sleepDue (env.milliseconds s.calls % 2 ^ 32) s.lastTick s.win.updateInterval
            then [Event.sleep 5] else []),
        { s with calls := s.calls + 1 }, none⟩ := by
  unfold iteration
  simp only [ShowState.log]
  rw [Step.andThen_of_none _ rfl]
  simp only [h, Bool.false_eq_true, if_false]
  split <;> rfl

theorem elapsed_of_le {ms lastTick : Nat} (hms : ms < 2 ^ 32) (hle : lastTick ≤ ms) :
    elapsed ms lastTick = ms - lastTick := by
  unfold elapsed
  omega

theorem tickDue_iff {ms lastTick : Nat} (updateInterval : Double) (hms : ms < 2 ^ 32) :
    tickDue ms lastTick updateInterval = true ↔
      ms < lastTick ∨ ms - lastTick ≥ static_cast_unsigned updateInterval := by
  unfold tickDue
  rw [Bool.or_eq_true, decide_eq_true_iff, decide_eq_true_iff]
  by_cases hlt : ms < lastTick
  · simp [hlt]
  · rw [elapsed_of_le hms (Nat.le_of_not_lt hlt)]

theorem static_cast_unsigned_of_lt {d : Double} (h : d < 2 ^ 32) :
    static_cast_unsigned d = ⌊d⌋₊ := by
  unfold static_cast_unsigned
  apply Nat.mod_eq_of_lt
  rw [Nat.floor_lt']
  · exact_mod_cast h
  · norm_num

theorem static_cast_unsigned_example : static_cast_unsigned (33 / 2) = 16 := by
  rw [static_cast_unsigned_of_lt (by norm_num)]
  rw [Nat.floor_eq_iff (by norm_num)]
  norm_num

theorem ticked_iff_tickDue {U : Type} (env : Env U) (s : ShowState U) :
    ticked (iteration env s).events ↔
      tickDue (env.milliseconds s.calls % 2 ^ 32) s.lastTick s.win.updateInterval = true := by
  cases h : tickDue (env.milliseconds s.calls % 2 ^ 32) s.lastTick s.win.updateInterval with
  | true =>
    rw [iteration_of_tickDue env s h]
    exact ⟨fun _ => rfl, fun _ => List.mem_cons_of_mem _ (tick_events_head _ _ _)⟩
  | false =>
    rw [iteration_of_not_tickDue env s h]
    constructor
    · intro hin
      rcases List.mem_cons.mp hin with h1 | h1
      · cases h1
      · split at h1
        · cases List.mem_singleton.mp h1
        · simp at h1
    · intro hf
      cases hf

theorem exampleStart_tickDue :
    tickDue (fixedStepClock 16 16 0 % 2 ^ 32) 0 (33 / 2) = true := by
  rw [tickDue_iff _ (by norm_num [fixedStepClock]), static_cast_unsigned_example]
  right
  norm_num [fixedStepClock]

theorem exampleStart_ticked :
    ticked (iteration (exampleEnv (fixedStepClock 16 16)) (exampleStart (33 / 2))).events := by
  rw [iteration_of_tickDue _ _ exampleStart_tickDue]
  exact List.mem_cons_of_mem _ (tick_events_head _ _ _)

/-- C19 (counterexample): with the update interval 16.5, `lastTick = 0` and the clock reading
16, the elapsed time 16 is below the configured interval and the clock has not wrapped, yet
the pass performs a tick, because the interval is compared after conversion to `unsigned`,
which gives 16. -/
theorem tick_before_interval_elapsed :
    (exampleStart (33 / 2)).win.updateInterval = 33 / 2 ∧
    (exampleStart (33 / 2)).lastTick = 0 ∧
    (exampleEnv (fixedStepClock 16 16)).milliseconds (exampleStart (33 / 2)).calls = 16 ∧
    ticked (iteration (exampleEnv (fixedStepClock 16 16)) (exampleStart (33 / 2))).events ∧
    ¬ (16 < 0 ∨ (((16 - 0 : Nat) : Double) ≥ 33 / 2)) := by
  refine ⟨rfl, rfl, rfl, exampleStart_ticked, ?_⟩
  norm_num

/-- C19 (amended): for an update interval `I` with `-1 < I < 2 ^ 32`, the range in which
`static_cast<unsigned>(I)` is defined, where it is the integer part `⌊I⌋₊` of `I`: in each
pass of the loop with clock reading `now` and last tick time `lastTick`, a tick is performed
if and only if `now < lastTick` or `now - lastTick` is at least `⌊I⌋₊`; when a tick is
performed `lastTick` becomes `now`, and when it is not, `lastTick` is unchanged and the pass
takes no step other than the clock reading and the sleep, so neither the input update nor
any hook is invoked. -/
theorem tick_performed_iff {U : Type} (env : Env U) (s : ShowState U)
    (_hlo : -1 < s.win.updateInterval) (hhi : s.win.updateInterval < 2 ^ 32) :
    (ticked (iteration env s).events ↔
      (env.milliseconds s.calls % 2 ^ 32 < s.lastTick ∨
        env.milliseconds s.calls % 2 ^ 32 - s.lastTick ≥ ⌊s.win.updateInterval⌋₊)) ∧
    (ticked (iteration env s).events →
      (iteration env s).state.lastTick = env.milliseconds s.calls % 2 ^ 32) ∧
    (¬ ticked (iteration env s).events →
      (iteration env s).state.lastTick = s.lastTick ∧
      ∀ ev ∈ (iteration env s).events,
        ev = Event.milliseconds (env.milliseconds s.calls % 2 ^ 32) ∨ ev = Event.sleep 5) := by
  have hms : env.milliseconds s.calls % 2 ^ 32 < 2 ^ 32 := Nat.mod_lt _ (by norm_num)
  rw [← static_cast_unsigned_of_lt hhi]
  cases h : tickDue (env.milliseconds s.calls % 2 ^ 32) s.lastTick s.win.updateInterval with
  | true =>
    have hin : ticked (iteration env s).events := by
      rw [iteration_of_tickDue env s h]
      exact List.mem_cons_of_mem _ (tick_events_head _ _ _)
    refine ⟨⟨fun _ => (tickDue_iff _ hms).mp h, fun _ => hin⟩, fun _ => ?_, fun hno => ?_⟩
    · rw [iteration_of_tickDue env s h]
      exact (tick_frames env _ _).1
    · exact absurd hin hno
  | false =>
    have hcond : ¬ (env.milliseconds s.calls % 2 ^ 32 < s.lastTick ∨
        env.milliseconds s.calls % 2 ^ 32 - s.lastTick ≥
          static_cast_unsigned s.win.updateInterval) := by
      rw [← tickDue_iff _ hms, h]
      simp
    have hev : ∀ ev ∈ (iteration env s).events,
        ev = Event.milliseconds (env.milliseconds s.calls % 2 ^ 32) ∨ ev = Event.sleep 5 := by
      intro ev hmem
      rw [iteration_of_not_tickDue env s h] at hmem
      rcases List.mem_cons.mp hmem with h1 | h1
      · exact Or.inl h1
      · split at h1
        · exact Or.inr (List.mem_singleton.mp h1)
        · simp at h1
    have hno : ¬ ticked (iteration env s).events := by
      intro hin
      rcases hev _ hin with h1 | h1 <;> cases h1
    refine ⟨⟨fun hin => absurd hin hno, fun hc => absurd hc hcond⟩, fun hin => absurd hin hno,
      fun _ => ⟨?_, hev⟩⟩
    rw [iteration_of_not_tickDue env s h]

theorem tick_performed_iff_witness :
    (iteration (exampleEnv (fixedStepClock 16 16)) (exampleStart 16)).state.lastTick =
      fixedStepClock 16 16 0 % 2 ^ 32 :=
  (tick_performed_iff (exampleEnv (fixedStepClock 16 16)) (exampleStart 16)
      (by norm_num [exampleStart, exampleWindow])
      (by norm_num [exampleStart, exampleWindow])).2.1
    ((tick_performed_iff (exampleEnv (fixedStepClock 16 16)) (exampleStart 16)
        (by norm_num [exampleStart, exampleWindow])
        (by norm_num [exampleStart, exampleWindow])).1.mpr
      (Or.inr (by
        show fixedStepClock 16 16 0 % 2 ^ 32 - 0 ≥ ⌊(16 : Double)⌋₊
        rw [show ((16 : Double)) = ((16 : Nat) : Double) by norm_num, Nat.floor_natCast]
        norm_num [fixedStepClock])))

/-- The interval truncated to a natural number is at most `e` exactly when less than one
millisecond of the interval remains after `e` milliseconds. -/
theorem floor_le_iff_remaining_lt_one (I : Double) (e : Nat) :
    ⌊I⌋₊ ≤ e ↔ I - (e : Double) < 1 := by
  rw [← Nat.lt_succ_iff, Nat.floor_lt' (Nat.succ_ne_zero e), Nat.cast_succ]
  constructor <;> intro h <;> linarith

/-- While the clock has not wrapped, the tick condition holds exactly when less than one
millisecond remains until the interval has elapsed. -/
theorem tickDue_iff_remaining {ms lastTick : Nat} {updateInterval : Double}
    (hms : ms < 2 ^ 32) (hhi : updateInterval < 2 ^ 32) (hle : lastTick ≤ ms) :
    tickDue ms lastTick updateInterval = true ↔
      updateInterval - ((ms - lastTick : Nat) : Double) < 1 := by
  rw [tickDue_iff updateInterval hms, static_cast_unsigned_of_lt hhi,
    ← floor_le_iff_remaining_lt_one]
  constructor
  · rintro (h | h)
    · omega
    · exact h
  · exact Or.inr

/-- A pass entered with the update interval 3 and the last tick at `2 ^ 32 - 1`, the last
reading before the 32-bit clock wraps, in which the clock reads 0, performs a tick. -/
theorem wrappedStart_ticked :
    ticked (iteration (exampleEnv (fixedStepClock 0 1))
      ⟨exampleWindow 3, 0, 2 ^ 32 - 1, 0⟩).events := by
  rw [ticked_iff_tickDue, tickDue_iff _ (Nat.mod_lt _ (by norm_num))]
  left
  show fixedStepClock 0 1 0 % 2 ^ 32 < 2 ^ 32 - 1
  norm_num [fixedStepClock]

/-- C20 (counterexample): two passes with 5 ms or less remaining that perform a tick. With
the update interval 16.5, `lastTick = 0` and the clock reading 16, half a millisecond
remains until the interval has elapsed, yet the pass performs a tick. With the update
interval 3, `lastTick = 2 ^ 32 - 1` and the clock reading 0 after it wrapped, the unsigned
difference `ms - lastTick` is 1 and 2 ms remain, yet the pass performs a tick. -/
theorem tick_with_time_remaining :
    ((exampleStart (33 / 2)).win.updateInterval = 33 / 2 ∧
      (exampleStart (33 / 2)).lastTick = 0 ∧
      (exampleEnv (fixedStepClock 16 16)).milliseconds (exampleStart (33 / 2)).calls = 16 ∧
      (0 : Double) < 33 / 2 - ((elapsed 16 0 : Nat) : Double) ∧
      (33 / 2 : Double) - ((elapsed 16 0 : Nat) : Double) ≤ 5 ∧
      ticked
        (iteration (exampleEnv (fixedStepClock 16 16)) (exampleStart (33 / 2))).events) ∧
    ((exampleEnv (fixedStepClock 0 1)).milliseconds 0 = 0 ∧
      elapsed 0 (2 ^ 32 - 1) = 1 ∧
      (3 : Double) - ((elapsed 0 (2 ^ 32 - 1) : Nat) : Double) = 2 ∧
      ticked (iteration (exampleEnv (fixedStepClock 0 1))
        ⟨exampleWindow 3, 0, 2 ^ 32 - 1, 0⟩).events) := by
  have h1 : elapsed 16 0 = 16 := by norm_num [elapsed]
  have h2 : elapsed 0 (2 ^ 32 - 1) = 1 := by norm_num [elapsed]
  refine ⟨⟨rfl, rfl, rfl, ?_, ?_, exampleStart_ticked⟩, rfl, h2, ?_, wrappedStart_ticked⟩
  · rw [h1]
    norm_num
  · rw [h1]
    norm_num
  · rw [h2]
    norm_num

/-- C20 (amended): for an update interval `I` with `-1 < I < 2 ^ 32`, in each pass of the
loop the 5 ms sleep is taken if and only if no tick is performed in that pass and the time
remaining until the next tick, `updateInterval - (now - lastTick)`, is more than 5 ms; a
pass that performs a tick never sleeps; a pass in which the clock has not wrapped
(`lastTick <= now`) and at least 1 ms but no more than 5 ms remain neither ticks nor
sleeps; a pass in which the clock has not wrapped and less than 1 ms remains performs a
tick, and so does a pass in which the clock has wrapped. -/
theorem sleep_iff {U : Type} (env : Env U) (s : ShowState U)
    (_hlo : -1 < s.win.updateInterval) (hhi : s.win.updateInterval < 2 ^ 32) :
    (Event.sleep 5 ∈ (iteration env s).events ↔
      (¬ ticked (iteration env s).events ∧
        s.win.updateInterval -
          ((env.milliseconds s.calls % 2 ^ 32 - s.lastTick : Nat) : Double) > 5)) ∧
    (ticked (iteration env s).events → ∀ n, Event.sleep n ∉ (iteration env s).events) ∧
    (s.lastTick ≤ env.milliseconds s.calls % 2 ^ 32 →
      1 ≤ s.win.updateInterval -
          ((env.milliseconds s.calls % 2 ^ 32 - s.lastTick : Nat) : Double) →
      s.win.updateInterval -
          ((env.milliseconds s.calls % 2 ^ 32 - s.lastTick : Nat) : Double) ≤ 5 →
      ¬ ticked (iteration env s).events ∧ ∀ n, Event.sleep n ∉ (iteration env s).events) ∧
    (s.lastTick ≤ env.milliseconds s.calls % 2 ^ 32 →
      s.win.updateInterval -
          ((env.milliseconds s.calls % 2 ^ 32 - s.lastTick : Nat) : Double) < 1 →
      ticked (iteration env s).events) ∧
    (env.milliseconds s.calls % 2 ^ 32 < s.lastTick → ticked (iteration env s).events) := by
  have hms : env.milliseconds s.calls % 2 ^ 32 < 2 ^ 32 := Nat.mod_lt _ (by norm_num)
  have base : (Event.sleep 5 ∈ (iteration env s).events ↔
      (¬ ticked (iteration env s).events ∧
        s.win.updateInterval -
          ((env.milliseconds s.calls % 2 ^ 32 - s.lastTick : Nat) : Double) > 5)) ∧
    (ticked (iteration env s).events → ∀ n, Event.sleep n ∉ (iteration env s).events) ∧
    (¬ ticked (iteration env s).events →
      s.win.updateInterval -
          ((env.milliseconds s.calls % 2 ^ 32 - s.lastTick : Nat) : Double) ≤ 5 →
      ∀ n, Event.sleep n ∉ (iteration env s).events) := by
    cases h : tickDue (env.milliseconds s.calls % 2 ^ 32) s.lastTick s.win.updateInterval with
    | true =>
      have hin : ticked (iteration env s).events := by
        rw [iteration_of_tickDue env s h]
        exact List.mem_cons_of_mem _ (tick_events_head _ _ _)
      have hns : ∀ n, Event.sleep n ∉ (iteration env s).events := by
        intro n hmem
        rw [iteration_of_tickDue env s h] at hmem
        rcases List.mem_cons.mp hmem with h1 | h1
        · cases h1
        · have := tick_fromTick env _ _ _ h1
          cases this
      exact ⟨⟨fun hmem => absurd hmem (hns 5), fun hc => absurd hin hc.1⟩, fun _ => hns,
        fun hno => absurd hin hno⟩
    | false =>
      have hle : s.lastTick ≤ env.milliseconds s.calls % 2 ^ 32 := by
        by_contra hlt
        have := (tickDue_iff s.win.updateInterval hms).mpr (Or.inl (Nat.lt_of_not_le hlt))
        rw [h] at this
        cases this
      have hev : (iteration env s).events =
          Event.milliseconds (env.milliseconds s.calls % 2 ^ 32) ::
            (if s.win.updateInterval -
                ((env.milliseconds s.calls % 2 ^ 32 - s.lastTick : Nat) : Double) > 5
              then [Event.sleep 5] else []) := by
        rw [iteration_of_not_tickDue env s h]
        simp only [sleepDue, elapsed_of_le hms hle, decide_eq_true_eq]
      have hno : ¬ ticked (iteration env s).events := by
        intro hin
        unfold ticked at hin
        rw [hev] at hin
        rcases List.mem_cons.mp hin with h1 | h1
        · cases h1
        · split at h1
          · cases List.mem_singleton.mp h1
          · simp at h1
      refine ⟨⟨fun hmem => ⟨hno, ?_⟩, fun hc => ?_⟩, fun hin => absurd hin hno,
        fun _ hrem => ?_⟩
      · rw [hev] at hmem
        by_contra hnot
        rw [if_neg hnot] at hmem
        simp at hmem
      · rw [hev, if_pos hc.2]
        simp
      · intro n hmem
        rw [hev, if_neg (not_lt.mpr hrem)] at hmem
        simp at hmem
  refine ⟨base.1, base.2.1, fun hle h1 h5 => ?_, fun hle hlt => ?_, fun hwrap => ?_⟩
  · have hnot : ¬ ticked (iteration env s).events := by
      rw [ticked_iff_tickDue, tickDue_iff_remaining hms hhi hle]
      exact not_lt.mpr h1
    exact ⟨hnot, base.2.2 hnot h5⟩
  · rw [ticked_iff_tickDue, tickDue_iff_remaining hms hhi hle]
    exact hlt
  · rw [ticked_iff_tickDue, tickDue_iff _ hms]
    exact Or.inl hwrap

theorem sleep_iff_witness :
    (∀ n, Event.sleep n ∉
      (iteration (exampleEnv (fixedStepClock 16 16)) (exampleStart (33 / 2))).events) ∧
    (¬ ticked (iteration (exampleEnv (fixedStepClock 12 1)) (exampleStart 16)).events ∧
      ∀ n, Event.sleep n ∉
        (iteration (exampleEnv (fixedStepClock 12 1)) (exampleStart 16)).events) :=
  ⟨(sleep_iff (exampleEnv (fixedStepClock 16 16)) (exampleStart (33 / 2))
      (by norm_num [exampleStart, exampleWindow])
      (by norm_num [exampleStart, exampleWindow])).2.1 exampleStart_ticked,
   (sleep_iff (exampleEnv (fixedStepClock 12 1)) (exampleStart 16)
      (by norm_num [exampleStart, exampleWindow])
      (by norm_num [exampleStart, exampleWindow])).2.2.1
      (Nat.zero_le _)
      (by
        show (1 : Double) ≤ 16 - ((fixedStepClock 12 1 0 % 2 ^ 32 - 0 : Nat) : Double)
        norm_num [fixedStepClock])
      (by
        show (16 : Double) - ((fixedStepClock 12 1 0 % 2 ^ 32 - 0 : Nat) : Double) ≤ 5
        norm_num [fixedStepClock])⟩

theorem showLoop_closed {U : Type} (env : Env U) (fuel : Nat) (s : ShowState U)
    (h : s.win.closed = true) : showLoop env fuel s = ⟨[], s, Outcome.returned⟩ := by
  cases fuel <;> simp [showLoop, h]

theorem showLoop_raise {U : Type} (env : Env U) (fuel : Nat) (s : ShowState U) (e : Exn)
    (hopen : s.win.closed = false) (hr : (iteration env s).raised = some e) :
    showLoop env (fuel + 1) s =
      ⟨(iteration env s).events ++ [Event.close],
        { (iteration env s).state with win := (iteration env s).state.win.close },
        Outcome.threw e⟩ := by
  simp [showLoop, hopen, hr]

theorem showLoop_continue {U : Type} (env : Env U) (fuel : Nat) (s : ShowState U)
    (hopen : s.win.closed = false) (hr : (iteration env s).raised = none) :
    showLoop env (fuel + 1) s =
      ⟨(iteration env s).events ++ (showLoop env fuel (iteration env s).state).events,
        (showLoop env fuel (iteration env s).state).state,
        (showLoop env fuel (iteration env s).state).outcome⟩ := by
  simp [showLoop, hopen, hr]

theorem updateTimes_append (l₁ l₂ : List Event) :
    updateTimes (l₁ ++ l₂) = updateTimes l₁ ++ updateTimes l₂ := by
  unfold updateTimes
  exact List.filterMap_append _ _ _

theorem updateTimes_of_afterUpdate {l : List Event} (h : ∀ e ∈ l, e.afterUpdate = true) :
    updateTimes l = [] := by
  unfold updateTimes
  rw [List.filterMap_eq_nil_iff]
  intro e he
  have := h e he
  cases e <;> first | rfl | cases this

theorem updateTimes_callHook {U α : Type} (s : ShowState U) (ev : Event)
    (r : HookResult U α) : updateTimes (s.callHook ev r).events = updateTimes [ev] := by
  unfold ShowState.callHook closeIf
  cases r.calledClose <;> cases ev <;> rfl

theorem updateTimes_andThen {U : Type} (a : Step U) (f : ShowState U → Step U) :
    updateTimes (a.andThen f).events = updateTimes a.events ∨
      updateTimes (a.andThen f).events =
        updateTimes a.events ++ updateTimes (f a.state).events := by
  cases h : a.raised with
  | none =>
    rw [Step.andThen_of_none f h]
    exact Or.inr (updateTimes_append _ _)
  | some e =>
    rw [Step.andThen_of_some f h]
    exact Or.inl rfl

theorem updateTimes_tick {U : Type} (env : Env U) (ms : Nat) (s : ShowState U) :
    updateTimes (tick env ms s).events = [] ∨ updateTimes (tick env ms s).events = [ms] := by
  unfold tick
  rcases updateTimes_andThen _ _ with h | h <;> rw [h, updateTimes_callHook]
  · exact Or.inl rfl
  · have hc : ∀ t : ShowState U, updateTimes (setCursorIf env t).events = [] := by
      intro t
      rw [setCursorIf_events]
      split <;> rfl
    rcases updateTimes_andThen _ _ with h | h <;> rw [h, hc]
    · exact Or.inl rfl
    · unfold fromUpdate
      rcases updateTimes_andThen _ _ with h | h <;> rw [h, updateTimes_callHook]
      · exact Or.inr rfl
      · rw [updateTimes_of_afterUpdate (restOfTick_afterUpdate env _)]
        exact Or.inr rfl

theorem updateTimes_iteration {U : Type} (env : Env U) (s : ShowState U) :
    updateTimes (iteration env s).events = [] ∨
      (tickDue (env.milliseconds s.calls % 2 ^ 32) s.lastTick s.win.updateInterval = true ∧
        updateTimes (iteration env s).events = [env.milliseconds s.calls % 2 ^ 32]) := by
  cases h : tickDue (env.milliseconds s.calls % 2 ^ 32) s.lastTick s.win.updateInterval with
  | true =>
    rw [iteration_of_tickDue env s h]
    have hc : ∀ l : List Event, updateTimes (Event.milliseconds
        (env.milliseconds s.calls % 2 ^ 32) :: l) = updateTimes l := fun _ => rfl
    rw [hc]
    rcases updateTimes_tick env (env.milliseconds s.calls % 2 ^ 32)
      { s with calls := s.calls + 1 } with h1 | h1
    · exact Or.inl h1
    · exact Or.inr ⟨rfl, h1⟩
  | false =>
    rw [iteration_of_not_tickDue env s h]
    left
    split <;> rfl

theorem iteration_frames {U : Type} (env : Env U) (s : ShowState U) :
    (iteration env s).state.calls = s.calls + 1 ∧
    (iteration env s).state.win.updateInterval = s.win.updateInterval ∧
    ((iteration env s).state.lastTick = s.lastTick ∨
      (tickDue (env.milliseconds s.calls % 2 ^ 32) s.lastTick s.win.updateInterval = true ∧
        (iteration env s).state.lastTick = env.milliseconds s.calls % 2 ^ 32)) := by
  cases h : tickDue (env.milliseconds s.calls % 2 ^ 32) s.lastTick s.win.updateInterval with
  | true =>
    rw [iteration_of_tickDue env s h]
    have hf := tick_frames env (env.milliseconds s.calls % 2 ^ 32)
      { s with calls := s.calls + 1 }
    exact ⟨hf.2.1, hf.2.2.1, Or.inr ⟨rfl, hf.1⟩⟩
  | false =>
    rw [iteration_of_not_tickDue env s h]
    exact ⟨rfl, rfl, Or.inl rfl⟩

theorem chain_head_le {T a b : Nat} {l : List Nat} (hab : a ≤ b)
    (h : List.Chain (fun x y => x + T ≤ y) b l) : List.Chain (fun x y => x + T ≤ y) a l := by
  cases h with
  | nil => exact List.Chain.nil
  | cons hxy hrest => exact List.Chain.cons (by omega) hrest

/-- Spacing of the `update()` calls along the loop, for every clock that never goes back and
does not wrap during the run. -/
theorem showLoop_update_spacing {U : Type} (env : Env U) (T : Nat)
    (hmono : ∀ j k, j ≤ k → env.milliseconds j ≤ env.milliseconds k) (fuel : Nat) :
    ∀ s : ShowState U,
      (∀ k, s.calls ≤ k → k < s.calls + fuel → env.milliseconds k < 2 ^ 32) →
      s.lastTick ≤ env.milliseconds s.calls →
      static_cast_unsigned s.win.updateInterval = T →
      List.Chain (fun a b => a + T ≤ b) s.lastTick
        (updateTimes (showLoop env fuel s).events) := by
  induction fuel with
  | zero =>
    intro s _ _ _
    have : (showLoop env 0 s).events = [] := by
      unfold showLoop
      split <;> rfl
    rw [this]
    exact List.Chain.nil
  | succ fuel ih =>
    intro s hwrap hlast hT
    cases hclosed : s.win.closed with
    | true =>
      rw [showLoop_closed env _ s hclosed]
      exact List.Chain.nil
    | false =>
      have hms : env.milliseconds s.calls % 2 ^ 32 = env.milliseconds s.calls :=
        Nat.mod_eq_of_lt (hwrap s.calls (Nat.le_refl _) (by omega))
      have hfr := iteration_frames env s
      have hnext : env.milliseconds s.calls ≤ env.milliseconds (s.calls + 1) :=
        hmono _ _ (Nat.le_succ _)
      -- the update times of this pass, and the relation of the new `lastTick` to the old
      have hstep : ∀ rest : List Nat,
          List.Chain (fun a b => a + T ≤ b) (iteration env s).state.lastTick rest →
          List.Chain (fun a b => a + T ≤ b) s.lastTick
            (updateTimes (iteration env s).events ++ rest) := by
        intro rest hrest
        have hle : s.lastTick ≤ (iteration env s).state.lastTick := by
          rcases hfr.2.2 with h | ⟨_, h⟩
          · rw [h]
          · rw [h, hms]; exact hlast
        rcases updateTimes_iteration env s with h | ⟨htd, h⟩
        · rw [h, List.nil_append]
          exact chain_head_le hle hrest
        · rw [h, List.singleton_append]
          have hlt : (iteration env s).state.lastTick = env.milliseconds s.calls % 2 ^ 32 := by
            rcases hfr.2.2 with h' | ⟨_, h'⟩
            · have hin := (ticked_iff_tickDue env s).mpr htd
              rw [iteration_of_tickDue env s htd]
              exact (tick_frames env _ _).1
            · exact h'
          rw [hlt] at hrest
          refine List.Chain.cons ?_ hrest
          have hcond := (tickDue_iff s.win.updateInterval
            (Nat.mod_lt _ (by norm_num))).mp htd
          rw [hT, hms] at hcond
          rw [hms]
          omega
      cases hr : (iteration env s).raised with
      | some e =>
        rw [showLoop_raise env fuel s e hclosed hr, updateTimes_append]
        have : updateTimes [Event.close] = [] := rfl
        rw [this]
        exact hstep [] List.Chain.nil
      | none =>
        rw [showLoop_continue env fuel s hclosed hr, updateTimes_append]
        apply hstep
        apply ih
        · intro k hk1 hk2
          rw [hfr.1] at hk1 hk2
          exact hwrap k (by omega) (by omega)
        · rw [hfr.1]
          rcases hfr.2.2 with h | ⟨_, h⟩
          · rw [h]; exact Nat.le_trans hlast hnext
          · rw [h, hms]; exact hnext
        · rw [hfr.2.1]; exact hT

theorem callHook_raised_of_ok {U α : Type} (s : ShowState U) (ev : Event)
    {r : HookResult U α} {a : α} (h : r.result = .ok a) : (s.callHook ev r).raised = none := by
  unfold ShowState.callHook
  simp only [h]

theorem callHook_raised_of_error {U α : Type} (s : ShowState U) (ev : Event)
    {r : HookResult U α} {e : Exn} (h : r.result = .error e) :
    (s.callHook ev r).raised = some e := by
  unfold ShowState.callHook
  simp only [h]

theorem after_hasGraphics {U α : Type} (s : ShowState U) (r : HookResult U α) :
    (s.after r).win.hasGraphics = s.win.hasGraphics := by
  unfold ShowState.after
  cases r.calledClose <;> rfl

theorem after_closed_of_called {U α : Type} (s : ShowState U) (r : HookResult U α)
    (h : r.calledClose = true) : (s.after r).win.closed = true := by
  unfold ShowState.after
  rw [h]
  rfl

theorem iteration_of_input_ok {U : Type} (env : Env U) (s : ShowState U)
    (htick : tickDue (env.milliseconds s.calls % 2 ^ 32) s.lastTick s.win.updateInterval = true)
    (hin : (env.inputUpdate s.user).result = .ok ()) :
    iteration env s =
      ⟨[Event.milliseconds (env.milliseconds s.calls % 2 ^ 32), Event.inputUpdate] ++
          closeIf (env.inputUpdate s.user).calledClose ++
          (if env.mouseInside (env.userAtUpdate s.user) then [Event.setCursor] else []) ++
          (fromUpdate env (env.milliseconds s.calls % 2 ^ 32) (stateAtUpdate env s)).events,
        (fromUpdate env (env.milliseconds s.calls % 2 ^ 32) (stateAtUpdate env s)).state,
        (fromUpdate env (env.milliseconds s.calls % 2 ^ 32) (stateAtUpdate env s)).raised⟩ := by
  rw [iteration_of_tickDue env s htick]
  unfold tick
  simp only []
  rw [Step.andThen_of_none _ (callHook_raised_of_ok _ _ hin)]
  simp only [ShowState.callHook]
  rw [Step.andThen_of_none _ (setCursorIf_raised _ _)]
  simp only [setCursorIf_state, setCursorIf_events]
  simp only [stateAtUpdate, Env.userAtUpdate, ShowState.after, List.cons_append,
    List.nil_append, List.append_assoc]

theorem fromUpdate_of_error {U : Type} (env : Env U) (ms : Nat) (t : ShowState U) (e : Exn)
    (hup : (env.update t.user).result = .error e) :
    fromUpdate env ms t =
      ⟨[Event.update ms] ++ closeIf (env.update t.user).calledClose,
        t.after (env.update t.user), some e⟩ := by
  unfold fromUpdate
  rw [Step.andThen_of_some _ (callHook_raised_of_error _ _ hup)]
  simp only [ShowState.callHook, hup, List.singleton_append]

theorem fromUpdate_of_ok {U : Type} (env : Env U) (ms : Nat) (t : ShowState U)
    (hup : (env.update t.user).result = .ok ()) :
    fromUpdate env ms t =
      ⟨[Event.update ms] ++ closeIf (env.update t.user).calledClose ++
          (restOfTick env (t.after (env.update t.user))).events,
        (restOfTick env (t.after (env.update t.user))).state,
        (restOfTick env (t.after (env.update t.user))).raised⟩ := by
  unfold fromUpdate
  rw [Step.andThen_of_none _ (callHook_raised_of_ok _ _ hup)]
  simp only [ShowState.callHook, List.singleton_append]

theorem renderScope_of_draw_error {U : Type} (env : Env U) (t : ShowState U) (e : Exn)
    (hg : t.win.hasGraphics = true) (hb : env.begin t.user = true)
    (hdraw : (env.draw t.user).result = .error e) :
    renderScope env t =
      ⟨[Event.graphicsBegin true, Event.draw] ++ closeIf (env.draw t.user).calledClose ++
          [Event.graphicsEnd],
        t.after (env.draw t.user), some e⟩ := by
  unfold renderScope
  simp only [hg, hb, if_true, ShowState.callHook, hdraw, List.cons_append, List.nil_append]

theorem renderScope_of_draw_ok {U : Type} (env : Env U) (t : ShowState U)
    (hg : t.win.hasGraphics = true) (hb : env.begin t.user = true)
    (hdraw : (env.draw t.user).result = .ok ()) :
    renderScope env t =
      ⟨[Event.graphicsBegin true, Event.draw] ++ closeIf (env.draw t.user).calledClose ++
          [Event.graphicsEnd],
        t.after (env.draw t.user), none⟩ := by
  unfold renderScope
  simp only [hg, hb, if_true, ShowState.callHook, hdraw, List.cons_append, List.nil_append]

theorem redraw_of_needsRedraw_error {U : Type} (env : Env U) (t : ShowState U) (e : Exn)
    (hnr : (env.needsRedraw t.user).result = .error e) :
    redraw env t =
      ⟨[Event.needsRedraw] ++ closeIf (env.needsRedraw t.user).calledClose,
        t.after (env.needsRedraw t.user), some e⟩ := by
  unfold redraw
  simp only []
  rw [Step.andThen_of_some _ (callHook_raised_of_error _ _ hnr)]
  simp only [ShowState.callHook, hnr, List.singleton_append]

theorem redraw_of_true {U : Type} (env : Env U) (t : ShowState U)
    (hnr : (env.needsRedraw t.user).result = .ok true) :
    redraw env t =
      ⟨[Event.needsRedraw] ++ closeIf (env.needsRedraw t.user).calledClose ++
          ((renderScope env (t.after (env.needsRedraw t.user))).andThen
            fun s => s.log Event.swapBuffers).events,
        ((renderScope env (t.after (env.needsRedraw t.user))).andThen
            fun s => s.log Event.swapBuffers).state,
        ((renderScope env (t.after (env.needsRedraw t.user))).andThen
            fun s => s.log Event.swapBuffers).raised⟩ := by
  unfold redraw
  simp only []
  rw [Step.andThen_of_none _ (callHook_raised_of_ok _ _ hnr)]
  simp only [ShowState.callHook, hnr, List.singleton_append]

theorem redraw_of_draw_error {U : Type} (env : Env U) (t : ShowState U) (e : Exn)
    (hnr : (env.needsRedraw t.user).result = .ok true)
    (hg : t.win.hasGraphics = true)
    (hb : env.begin (env.needsRedraw t.user).user = true)
    (hdraw : (env.draw (env.needsRedraw t.user).user).result = .error e) :
    redraw env t =
      ⟨[Event.needsRedraw] ++ closeIf (env.needsRedraw t.user).calledClose ++
          ([Event.graphicsBegin true, Event.draw] ++
            closeIf (env.draw (env.needsRedraw t.user).user).calledClose ++
            [Event.graphicsEnd]),
        (t.after (env.needsRedraw t.user)).after (env.draw (env.needsRedraw t.user).user),
        some e⟩ := by
  have hg' : (t.after (env.needsRedraw t.user)).win.hasGraphics = true := by
    rw [after_hasGraphics, hg]
  rw [redraw_of_true env t hnr,
    renderScope_of_draw_error env (t.after (env.needsRedraw t.user)) e hg' hb hdraw,
    Step.andThen_of_some _ rfl]
  rfl

theorem redraw_of_draw_ok {U : Type} (env : Env U) (t : ShowState U)
    (hnr : (env.needsRedraw t.user).result = .ok true)
    (hg : t.win.hasGraphics = true)
    (hb : env.begin (env.needsRedraw t.user).user = true)
    (hdraw : (env.draw (env.needsRedraw t.user).user).result = .ok ()) :
    redraw env t =
      ⟨[Event.needsRedraw] ++ closeIf (env.needsRedraw t.user).calledClose ++
          ([Event.graphicsBegin true, Event.draw] ++
            closeIf (env.draw (env.needsRedraw t.user).user).calledClose ++
            [Event.graphicsEnd] ++ [Event.swapBuffers]),
        (t.after (env.needsRedraw t.user)).after (env.draw (env.needsRedraw t.user).user),
        none⟩ := by
  have hg' : (t.after (env.needsRedraw t.user)).win.hasGraphics = true := by
    rw [after_hasGraphics, hg]
  rw [redraw_of_true env t hnr,
    renderScope_of_draw_ok env (t.after (env.needsRedraw t.user)) hg' hb hdraw,
    Step.andThen_of_none _ rfl]
  rfl

theorem restOfTick_of_raise {U : Type} (env : Env U) (t : ShowState U) (e : Exn)
    (h : (redraw env t).raised = some e) : restOfTick env t = redraw env t := by
  unfold restOfTick
  exact Step.andThen_of_some _ h

theorem restOfTick_of_redraw_ok {U : Type} (env : Env U) (t : ShowState U)
    (h : (redraw env t).raised = none) :
    restOfTick env t =
      ⟨(redraw env t).events ++ (callOncePerTick env (redraw env t).state).events,
        (callOncePerTick env (redraw env t).state).state,
        (callOncePerTick env (redraw env t).state).raised⟩ := by
  unfold restOfTick
  exact Step.andThen_of_none _ h

theorem fromUpdate_closed {U : Type} (env : Env U) (ms : Nat) (t : ShowState U)
    (h : (env.update t.user).calledClose = true) :
    (fromUpdate env ms t).state.win.closed = true := by
  have hc : (t.after (env.update t.user)).win.closed = true := after_closed_of_called _ _ h
  unfold fromUpdate
  cases hr : (t.callHook (Event.update ms) (env.update t.user)).raised with
  | none =>
    rw [Step.andThen_of_none _ hr]
    exact (restOfTick_frames env _).2.2.2.2 hc
  | some e =>
    rw [Step.andThen_of_some _ hr]
    exact hc

theorem not_mem_closeIf {b : Bool} {ev : Event} (h : ev ≠ Event.close) : ev ∉ closeIf b :=
  fun hmem => h (mem_closeIf hmem)

theorem graphicsEnd_not_mem_eventsToDraw {U : Type} (env : Env U) (ms : Nat) (u : U) :
    Event.graphicsEnd ∉ eventsToDraw env ms u := by
  simp only [eventsToDraw, eventsToNeedsRedraw, eventsToUpdate, closeIf]
  split_ifs <;> simp

theorem swapBuffers_not_mem_eventsToDraw {U : Type} (env : Env U) (ms : Nat) (u : U) :
    Event.swapBuffers ∉ eventsToDraw env ms u := by
  simp only [eventsToDraw, eventsToNeedsRedraw, eventsToUpdate, closeIf]
  split_ifs <;> simp

theorem graphicsEnd_not_mem_callOncePerTick {U : Type} (env : Env U) (t : ShowState U) :
    Event.graphicsEnd ∉ (callOncePerTick env t).events := by
  intro h
  unfold callOncePerTick at h
  split at h
  · rcases mem_callHook_events h with h1 | h1 <;> cases h1
  · simp at h

/-! ## Theorems on the loop of `show` -/

/-- C12 (counterexample): with the update interval 16.5 and a clock that reads 16, 32, ... in
fixed steps of 16, `update()` is called at the readings 16 and 32: the first call comes
before 16.5 ms have elapsed since the initial `lastTick` of 0, and the two calls are less
than 16.5 ms apart. -/
theorem update_before_interval_elapsed :
    (exampleWindow (33 / 2)).updateInterval = 33 / 2 ∧
    updateTimes
      (Window.show (exampleEnv (fixedStepClock 16 16)) 2 (exampleWindow (33 / 2)) 0).events =
        [16, 32] ∧
    ((16 - 0 : Nat) : Double) < 33 / 2 ∧ ((32 - 16 : Nat) : Double) < 33 / 2 := by
  refine ⟨rfl, ?_, by norm_num, by norm_num⟩
  simp [Window.show, showLoop, iteration, tick, fromUpdate, restOfTick, setCursorIf, redraw,
    renderScope, callOncePerTick, Step.andThen, ShowState.callHook, ShowState.after,
    ShowState.log, exampleEnv, exampleWindow, fixedStepClock, quietHook, closeIf, tickDue,
    sleepDue, elapsed, static_cast_unsigned_example, updateTimes]

/-- C12 (amended): for every update interval `0 < I < 2 ^ 32` and every clock that advances
in fixed non-negative steps without wrapping, the clock readings of any two consecutive
`update()` calls differ by at least the integer part of `I`, and the first call does not
occur before the integer part of `I` milliseconds have elapsed since the initial `lastTick`
of 0. -/
theorem update_spacing {U : Type} (env : Env U) (t0 step fuel : Nat) (w : Window) (user : U)
    (hclock : env.milliseconds = fixedStepClock t0 step)
    (hwrap : ∀ k < fuel, t0 + k * step < 2 ^ 32)
    (_hpos : 0 < w.updateInterval) (hlt : w.updateInterval < 2 ^ 32) :
    List.Chain (fun a b => a + ⌊w.updateInterval⌋₊ ≤ b) 0
      (updateTimes (Window.show env fuel w user).events) := by
  have hmono : ∀ j k, j ≤ k → env.milliseconds j ≤ env.milliseconds k := by
    intro j k hjk
    rw [hclock]
    unfold fixedStepClock
    exact Nat.add_le_add_left (Nat.mul_le_mul_right _ hjk) _
  have h := showLoop_update_spacing env ⌊w.updateInterval⌋₊ hmono fuel
    ⟨{ w with visible := true }, user, 0, 0⟩
    (by
      intro k _ hk
      rw [hclock]
      exact hwrap k (by simpa using hk))
    (Nat.zero_le _)
    (static_cast_unsigned_of_lt hlt)
  exact h

theorem update_spacing_witness :
    List.Chain (fun a b => a + ⌊(16 : Double)⌋₊ ≤ b) 0
      (updateTimes
        (Window.show (exampleEnv (fixedStepClock 0 10)) 5 (exampleWindow 16) 0).events) :=
  update_spacing (exampleEnv (fixedStepClock 0 10)) 0 10 5 (exampleWindow 16) 0 rfl
    (by intro k hk; omega) (by norm_num [exampleWindow]) (by norm_num [exampleWindow])

/-- C13: if `update()` calls `close()` during a tick, the window is closed when the pass
ends, and the loop starts no further pass: when the rest of the pass raises nothing,
`show()` returns having taken exactly the steps of this pass, and when it raises, `show()`
closes and rethrows; either way no `update()` and no `draw()` happens in a later pass. -/
theorem close_in_update_ends_loop {U : Type} (env : Env U) (s : ShowState U) (fuel : Nat)
    (hopen : s.win.closed = false)
    (htick : tickDue (env.milliseconds s.calls % 2 ^ 32) s.lastTick s.win.updateInterval = true)
    (hin : (env.inputUpdate s.user).result = .ok ())
    (hclose : (env.update (env.userAtUpdate s.user)).calledClose = true) :
    (iteration env s).state.win.closed = true ∧
    ((iteration env s).raised = none →
      showLoop env (fuel + 1) s =
        ⟨(iteration env s).events, (iteration env s).state, Outcome.returned⟩) ∧
    (∀ e, (iteration env s).raised = some e →
      showLoop env (fuel + 1) s =
        ⟨(iteration env s).events ++ [Event.close],
          { (iteration env s).state with win := (iteration env s).state.win.close },
          Outcome.threw e⟩) := by
  have hc : (iteration env s).state.win.closed = true := by
    rw [iteration_of_input_ok env s htick hin]
    exact fromUpdate_closed env _ (stateAtUpdate env s) hclose
  refine ⟨hc, fun hr => ?_, fun e hr => showLoop_raise env fuel s e hopen hr⟩
  rw [showLoop_continue env fuel s hopen hr, showLoop_closed env fuel _ hc,
    List.append_nil]

theorem close_in_update_ends_loop_witness :
    (iteration (closingEnv (fixedStepClock 16 16)) (exampleStart (33 / 2))).state.win.closed =
      true :=
  (close_in_update_ends_loop (closingEnv (fixedStepClock 16 16)) (exampleStart (33 / 2)) 3
    rfl exampleStart_tickDue rfl rfl).1

/-- C14: if `update()`, `needsRedraw()` or `draw()` raises during a pass of the loop,
`show()` neither swallows nor retries: it ends by throwing the same exception, the closed
flag is true afterwards, and the steps taken end with the raising hook (plus the `close()`
that hook may have called, and the `graphics().end()` of the render scope when `draw()`
raised) followed by the `close()` of `show()`; no further hook is invoked. -/
theorem hook_failure_closes_and_rethrows {U : Type} (env : Env U) (s : ShowState U)
    (fuel : Nat) (e : Exn)
    (hopen : s.win.closed = false)
    (htick : tickDue (env.milliseconds s.calls % 2 ^ 32) s.lastTick s.win.updateInterval = true)
    (hin : (env.inputUpdate s.user).result = .ok ()) :
    ((env.update (env.userAtUpdate s.user)).result = .error e →
      (showLoop env (fuel + 1) s).outcome = Outcome.threw e ∧
      (showLoop env (fuel + 1) s).state.win.closed = true ∧
      (showLoop env (fuel + 1) s).events =
        eventsToUpdate env (env.milliseconds s.calls % 2 ^ 32) s.user ++ [Event.close]) ∧
    ((env.update (env.userAtUpdate s.user)).result = .ok () →
      (env.needsRedraw (env.userAtNeedsRedraw s.user)).result = .error e →
      (showLoop env (fuel + 1) s).outcome = Outcome.threw e ∧
      (showLoop env (fuel + 1) s).state.win.closed = true ∧
      (showLoop env (fuel + 1) s).events =
        eventsToNeedsRedraw env (env.milliseconds s.calls % 2 ^ 32) s.user ++ [Event.close]) ∧
    ((env.update (env.userAtUpdate s.user)).result = .ok () →
      (env.needsRedraw (env.userAtNeedsRedraw s.user)).result = .ok true →
      s.win.hasGraphics = true →
      env.begin (env.userAtDraw s.user) = true →
      (env.draw (env.userAtDraw s.user)).result = .error e →
      (showLoop env (fuel + 1) s).outcome = Outcome.threw e ∧
      (showLoop env (fuel + 1) s).state.win.closed = true ∧
      (showLoop env (fuel + 1) s).events =
        eventsToDraw env (env.milliseconds s.calls % 2 ^ 32) s.user ++
          [Event.graphicsEnd, Event.close]) := by
  have hit := iteration_of_input_ok env s htick hin
  refine ⟨fun hup => ?_, fun hup hnr => ?_, fun hup hnr hg hb hdraw => ?_⟩
  · have hfu := fromUpdate_of_error env (env.milliseconds s.calls % 2 ^ 32)
      (stateAtUpdate env s) e hup
    rw [hfu] at hit
    have hr : (iteration env s).raised = some e := by rw [hit]
    rw [showLoop_raise env fuel s e hopen hr, hit]
    refine ⟨rfl, rfl, ?_⟩
    simp only [eventsToUpdate, List.append_assoc]
    rfl
  · have hfu := fromUpdate_of_ok env (env.milliseconds s.calls % 2 ^ 32)
      (stateAtUpdate env s) hup
    have hrd := redraw_of_needsRedraw_error env (stateAtNeedsRedraw env s) e hnr
    have hrest := restOfTick_of_raise env (stateAtNeedsRedraw env s) e (by rw [hrd])
    rw [hrd] at hrest
    change restOfTick env ((stateAtUpdate env s).after
      (env.update (stateAtUpdate env s).user)) = _ at hrest
    rw [hrest] at hfu
    rw [hfu] at hit
    have hr : (iteration env s).raised = some e := by rw [hit]
    rw [showLoop_raise env fuel s e hopen hr, hit]
    refine ⟨rfl, rfl, ?_⟩
    simp only [eventsToNeedsRedraw, eventsToUpdate, List.append_assoc]
    rfl
  · have hfu := fromUpdate_of_ok env (env.milliseconds s.calls % 2 ^ 32)
      (stateAtUpdate env s) hup
    have hg' : (stateAtNeedsRedraw env s).win.hasGraphics = true := by
      unfold stateAtNeedsRedraw stateAtUpdate
      rw [after_hasGraphics, after_hasGraphics]
      exact hg
    have hrd := redraw_of_draw_error env (stateAtNeedsRedraw env s) e hnr hg' hb hdraw
    have hrest := restOfTick_of_raise env (stateAtNeedsRedraw env s) e (by rw [hrd])
    rw [hrd] at hrest
    change restOfTick env ((stateAtUpdate env s).after
      (env.update (stateAtUpdate env s).user)) = _ at hrest
    rw [hrest] at hfu
    rw [hfu] at hit
    have hr : (iteration env s).raised = some e := by rw [hit]
    rw [showLoop_raise env fuel s e hopen hr, hit]
    refine ⟨rfl, rfl, ?_⟩
    simp only [eventsToDraw, eventsToNeedsRedraw, eventsToUpdate, List.append_assoc]
    rfl

theorem hook_failure_closes_and_rethrows_witness :
    (showLoop (updateFailsEnv (fixedStepClock 16 16)) 3 (exampleStart (33 / 2))).outcome =
      Outcome.threw 7 ∧
    (showLoop (needsRedrawFailsEnv (fixedStepClock 16 16)) 3 (exampleStart (33 / 2))).outcome =
      Outcome.threw 7 ∧
    (showLoop (drawFailsEnv (fixedStepClock 16 16)) 3 (exampleStart (33 / 2))).outcome =
      Outcome.threw 7 ∧
    (showLoop (drawFailsEnv (fixedStepClock 16 16)) 3
      (exampleStart (33 / 2))).state.win.closed = true :=
  ⟨((hook_failure_closes_and_rethrows (updateFailsEnv (fixedStepClock 16 16))
      (exampleStart (33 / 2)) 2 7 rfl exampleStart_tickDue rfl).1 rfl).1,
   ((hook_failure_closes_and_rethrows (needsRedrawFailsEnv (fixedStepClock 16 16))
      (exampleStart (33 / 2)) 2 7 rfl exampleStart_tickDue rfl).2.1 rfl rfl).1,
   ((hook_failure_closes_and_rethrows (drawFailsEnv (fixedStepClock 16 16))
      (exampleStart (33 / 2)) 2 7 rfl exampleStart_tickDue rfl).2.2 rfl rfl rfl rfl rfl).1,
   ((hook_failure_closes_and_rethrows (drawFailsEnv (fixedStepClock 16 16))
      (exampleStart (33 / 2)) 2 7 rfl exampleStart_tickDue rfl).2.2 rfl rfl rfl rfl rfl).2.1⟩

/-- C15: in every tick in which `graphics().begin()` succeeded, `graphics().end()` is called
exactly once, whether `draw()` returns normally or raises; when `draw()` returns, the buffers
are swapped right after `end()`, and when `draw()` raises, `end()` is the last step of the
pass before the exception leaves it and the buffers are not swapped. -/
theorem graphics_end_exactly_once {U : Type} (env : Env U) (s : ShowState U)
    (htick : tickDue (env.milliseconds s.calls % 2 ^ 32) s.lastTick s.win.updateInterval = true)
    (hin : (env.inputUpdate s.user).result = .ok ())
    (hup : (env.update (env.userAtUpdate s.user)).result = .ok ())
    (hnr : (env.needsRedraw (env.userAtNeedsRedraw s.user)).result = .ok true)
    (hg : s.win.hasGraphics = true)
    (hb : env.begin (env.userAtDraw s.user) = true) :
    (iteration env s).events.count Event.graphicsEnd = 1 ∧
    ((env.draw (env.userAtDraw s.user)).result = .ok () →
      (iteration env s).events =
        eventsToDraw env (env.milliseconds s.calls % 2 ^ 32) s.user ++
          [Event.graphicsEnd, Event.swapBuffers] ++
          (callOncePerTick env (stateAfterDraw env s)).events) ∧
    (∀ e, (env.draw (env.userAtDraw s.user)).result = .error e →
      (iteration env s).raised = some e ∧
      (iteration env s).events =
        eventsToDraw env (env.milliseconds s.calls % 2 ^ 32) s.user ++ [Event.graphicsEnd] ∧
      Event.swapBuffers ∉ (iteration env s).events) := by
  have hit := iteration_of_input_ok env s htick hin
  have hfu := fromUpdate_of_ok env (env.milliseconds s.calls % 2 ^ 32)
    (stateAtUpdate env s) hup
  have hg' : (stateAtNeedsRedraw env s).win.hasGraphics = true := by
    unfold stateAtNeedsRedraw stateAtUpdate
    rw [after_hasGraphics, after_hasGraphics]
    exact hg
  have hok : (env.draw (env.userAtDraw s.user)).result = .ok () →
      (iteration env s).events =
        eventsToDraw env (env.milliseconds s.calls % 2 ^ 32) s.user ++
          [Event.graphicsEnd, Event.swapBuffers] ++
          (callOncePerTick env (stateAfterDraw env s)).events := by
    intro hdraw
    have hrd := redraw_of_draw_ok env (stateAtNeedsRedraw env s) hnr hg' hb hdraw
    have hrest := restOfTick_of_redraw_ok env (stateAtNeedsRedraw env s) (by rw [hrd])
    rw [hrd] at hrest
    change restOfTick env ((stateAtUpdate env s).after
      (env.update (stateAtUpdate env s).user)) = _ at hrest
    rw [hrest] at hfu
    rw [hfu] at hit
    rw [hit]
    simp only [eventsToDraw, eventsToNeedsRedraw, eventsToUpdate, List.append_assoc]
    rfl
  have herr : ∀ e, (env.draw (env.userAtDraw s.user)).result = .error e →
      (iteration env s).raised = some e ∧
      (iteration env s).events =
        eventsToDraw env (env.milliseconds s.calls % 2 ^ 32) s.user ++ [Event.graphicsEnd] := by
    intro e hdraw
    have hrd := redraw_of_draw_error env (stateAtNeedsRedraw env s) e hnr hg' hb hdraw
    have hrest := restOfTick_of_raise env (stateAtNeedsRedraw env s) e (by rw [hrd])
    rw [hrd] at hrest
    change restOfTick env ((stateAtUpdate env s).after
      (env.update (stateAtUpdate env s).user)) = _ at hrest
    rw [hrest] at hfu
    rw [hfu] at hit
    rw [hit]
    refine ⟨rfl, ?_⟩
    simp only [eventsToDraw, eventsToNeedsRedraw, eventsToUpdate, List.append_assoc]
    rfl
  have h0 := List.count_eq_zero_of_not_mem
    (graphicsEnd_not_mem_eventsToDraw env (env.milliseconds s.calls % 2 ^ 32) s.user)
  refine ⟨?_, hok, fun e hdraw => ⟨(herr e hdraw).1, (herr e hdraw).2, ?_⟩⟩
  · cases hd : (env.draw (env.userAtDraw s.user)).result with
    | ok v =>
      rw [hok hd, List.count_append, List.count_append, h0,
        List.count_eq_zero_of_not_mem (graphicsEnd_not_mem_callOncePerTick env _)]
      rfl
    | error e =>
      rw [(herr e hd).2, List.count_append, h0]
      rfl
  · rw [(herr e hdraw).2]
    intro hmem
    rcases List.mem_append.mp hmem with h | h
    · exact swapBuffers_not_mem_eventsToDraw env _ _ h
    · cases List.mem_singleton.mp h

theorem graphics_end_exactly_once_witness :
    (iteration (drawFailsEnv (fixedStepClock 16 16)) (exampleStart (33 / 2))).events.count
        Event.graphicsEnd = 1 ∧
    Event.swapBuffers ∉
      (iteration (drawFailsEnv (fixedStepClock 16 16)) (exampleStart (33 / 2))).events ∧
    (iteration (exampleEnv (fixedStepClock 16 16)) (exampleStart (33 / 2))).events.count
        Event.graphicsEnd = 1 :=
  ⟨(graphics_end_exactly_once (drawFailsEnv (fixedStepClock 16 16)) (exampleStart (33 / 2))
      exampleStart_tickDue rfl rfl rfl rfl rfl).1,
   ((graphics_end_exactly_once (drawFailsEnv (fixedStepClock 16 16)) (exampleStart (33 / 2))
      exampleStart_tickDue rfl rfl rfl rfl rfl).2.2 7 rfl).2.2,
   (graphics_end_exactly_once (exampleEnv (fixedStepClock 16 16)) (exampleStart (33 / 2))
      exampleStart_tickDue rfl rfl rfl rfl rfl).1⟩

/-! ## Lemmas on the steps of a tick -/

theorem iteration_of_update_ok {U : Type} (env : Env U) (s : ShowState U)
    (htick : tickDue (env.milliseconds s.calls % 2 ^ 32) s.lastTick s.win.updateInterval = true)
    (hin : (env.inputUpdate s.user).result = .ok ())
    (hup : (env.update (env.userAtUpdate s.user)).result = .ok ()) :
    iteration env s =
      ⟨eventsToUpdate env (env.milliseconds s.calls % 2 ^ 32) s.user ++
          (restOfTick env (stateAtNeedsRedraw env s)).events,
        (restOfTick env (stateAtNeedsRedraw env s)).state,
        (restOfTick env (stateAtNeedsRedraw env s)).raised⟩ := by
  have hit := iteration_of_input_ok env s htick hin
  have hfu := fromUpdate_of_ok env (env.milliseconds s.calls % 2 ^ 32)
    (stateAtUpdate env s) hup
  change fromUpdate env (env.milliseconds s.calls % 2 ^ 32) (stateAtUpdate env s) =
    ⟨[Event.update (env.milliseconds s.calls % 2 ^ 32)] ++
        closeIf (env.update (env.userAtUpdate s.user)).calledClose ++
        (restOfTick env (stateAtNeedsRedraw env s)).events,
      (restOfTick env (stateAtNeedsRedraw env s)).state,
      (restOfTick env (stateAtNeedsRedraw env s)).raised⟩ at hfu
  rw [hfu] at hit
  rw [hit]
  simp only [eventsToUpdate, List.append_assoc]

theorem stateAtNeedsRedraw_hasGraphics {U : Type} (env : Env U) (s : ShowState U) :
    (stateAtNeedsRedraw env s).win.hasGraphics = s.win.hasGraphics := by
  unfold stateAtNeedsRedraw stateAtUpdate
  rw [after_hasGraphics, after_hasGraphics]

theorem redraw_of_false {U : Type} (env : Env U) (t : ShowState U)
    (hnr : (env.needsRedraw t.user).result = .ok false) :
    redraw env t =
      ⟨[Event.needsRedraw] ++ closeIf (env.needsRedraw t.user).calledClose,
        t.after (env.needsRedraw t.user), none⟩ := by
  unfold redraw
  simp only []
  rw [Step.andThen_of_none _ (callHook_raised_of_ok _ _ hnr)]
  simp only [ShowState.callHook, hnr, List.singleton_append, List.append_nil]

theorem renderScope_of_not_begun {U : Type} (env : Env U) (t : ShowState U)
    (h : ¬ (t.win.hasGraphics = true ∧ env.begin t.user = true)) :
    renderScope env t = ⟨eventsNotBegun t.win.hasGraphics, t, none⟩ := by
  unfold renderScope eventsNotBegun
  cases hg : t.win.hasGraphics with
  | false => simp
  | true =>
    have hb : env.begin t.user = false := by
      cases hb : env.begin t.user with
      | false => rfl
      | true => exact absurd ⟨hg, hb⟩ h
    simp [hb, ShowState.log]

theorem redraw_of_not_begun {U : Type} (env : Env U) (t : ShowState U)
    (hnr : (env.needsRedraw t.user).result = .ok true)
    (h : ¬ (t.win.hasGraphics = true ∧ env.begin (env.needsRedraw t.user).user = true)) :
    redraw env t =
      ⟨[Event.needsRedraw] ++ closeIf (env.needsRedraw t.user).calledClose ++
          (eventsNotBegun t.win.hasGraphics ++ [Event.swapBuffers]),
        t.after (env.needsRedraw t.user), none⟩ := by
  have h' : ¬ ((t.after (env.needsRedraw t.user)).win.hasGraphics = true ∧
      env.begin (t.after (env.needsRedraw t.user)).user = true) := by
    rw [after_hasGraphics]
    exact h
  rw [redraw_of_true env t hnr, renderScope_of_not_begun env _ h',
    Step.andThen_of_none _ rfl, after_hasGraphics]
  rfl

theorem mem_callOncePerTick_events {U : Type} {env : Env U} {t : ShowState U} {ev : Event}
    (h : ev ∈ (callOncePerTick env t).events) : ev = Event.oncePerTick ∨ ev = Event.close := by
  unfold callOncePerTick at h
  split at h
  · exact mem_callHook_events h
  · simp at h

theorem draw_not_mem_eventsToNeedsRedraw {U : Type} (env : Env U) (ms : Nat) (u : U) :
    Event.draw ∉ eventsToNeedsRedraw env ms u := by
  simp only [eventsToNeedsRedraw, eventsToUpdate, closeIf]
  split_ifs <;> simp

theorem swapBuffers_not_mem_eventsToNeedsRedraw {U : Type} (env : Env U) (ms : Nat) (u : U) :
    Event.swapBuffers ∉ eventsToNeedsRedraw env ms u := by
  simp only [eventsToNeedsRedraw, eventsToUpdate, closeIf]
  split_ifs <;> simp

theorem draw_mem_eventsToDraw {U : Type} (env : Env U) (ms : Nat) (u : U) :
    Event.draw ∈ eventsToDraw env ms u := by
  simp [eventsToDraw]

theorem count_draw_eventsToDraw {U : Type} (env : Env U) (ms : Nat) (u : U) :
    (eventsToDraw env ms u).count Event.draw = 1 := by
  simp only [eventsToDraw, List.count_append,
    List.count_eq_zero_of_not_mem (draw_not_mem_eventsToNeedsRedraw env ms u)]
  have hc : ∀ b : Bool, (closeIf b).count Event.draw = 0 := by
    intro b
    cases b <;> rfl
  rw [hc]
  rfl

/-- The steps of a tick in which `needsRedraw()` reported `false`. -/
theorem iteration_events_no_redraw {U : Type} (env : Env U) (s : ShowState U)
    (htick : tickDue (env.milliseconds s.calls % 2 ^ 32) s.lastTick s.win.updateInterval = true)
    (hin : (env.inputUpdate s.user).result = .ok ())
    (hup : (env.update (env.userAtUpdate s.user)).result = .ok ())
    (hnr : (env.needsRedraw (env.userAtNeedsRedraw s.user)).result = .ok false) :
    (iteration env s).events =
      eventsToNeedsRedraw env (env.milliseconds s.calls % 2 ^ 32) s.user ++
        (callOncePerTick env (stateAtDraw env s)).events := by
  have hrd := redraw_of_false env (stateAtNeedsRedraw env s) hnr
  have hrest := restOfTick_of_redraw_ok env (stateAtNeedsRedraw env s) (by rw [hrd])
  rw [hrd] at hrest
  rw [iteration_of_update_ok env s htick hin hup, hrest]
  simp only [eventsToNeedsRedraw, List.append_assoc]
  rfl

/-- The steps of a tick in which `needsRedraw()` reported `true` and no render scope could
be begun. -/
theorem iteration_events_not_begun {U : Type} (env : Env U) (s : ShowState U)
    (htick : tickDue (env.milliseconds s.calls % 2 ^ 32) s.lastTick s.win.updateInterval = true)
    (hin : (env.inputUpdate s.user).result = .ok ())
    (hup : (env.update (env.userAtUpdate s.user)).result = .ok ())
    (hnr : (env.needsRedraw (env.userAtNeedsRedraw s.user)).result = .ok true)
    (h : ¬ (s.win.hasGraphics = true ∧ env.begin (env.userAtDraw s.user) = true)) :
    (iteration env s).events =
      eventsToNeedsRedraw env (env.milliseconds s.calls % 2 ^ 32) s.user ++
        eventsNotBegun s.win.hasGraphics ++ [Event.swapBuffers] ++
        (callOncePerTick env (stateAtDraw env s)).events := by
  have h' : ¬ ((stateAtNeedsRedraw env s).win.hasGraphics = true ∧
      env.begin (env.needsRedraw (stateAtNeedsRedraw env s).user).user = true) := by
    rw [stateAtNeedsRedraw_hasGraphics]
    exact h
  have hrd := redraw_of_not_begun env (stateAtNeedsRedraw env s) hnr h'
  have hrest := restOfTick_of_redraw_ok env (stateAtNeedsRedraw env s) (by rw [hrd])
  rw [hrd, stateAtNeedsRedraw_hasGraphics] at hrest
  rw [iteration_of_update_ok env s htick hin hup, hrest]
  simp only [eventsToNeedsRedraw, List.append_assoc]
  rfl

/-- The steps of a tick in which the render scope was begun and `draw()` returned. -/
theorem iteration_events_draw_ok {U : Type} (env : Env U) (s : ShowState U)
    (htick : tickDue (env.milliseconds s.calls % 2 ^ 32) s.lastTick s.win.updateInterval = true)
    (hin : (env.inputUpdate s.user).result = .ok ())
    (hup : (env.update (env.userAtUpdate s.user)).result = .ok ())
    (hnr : (env.needsRedraw (env.userAtNeedsRedraw s.user)).result = .ok true)
    (hg : s.win.hasGraphics = true)
    (hb : env.begin (env.userAtDraw s.user) = true)
    (hdraw : (env.draw (env.userAtDraw s.user)).result = .ok ()) :
    (iteration env s).events =
        eventsToDraw env (env.milliseconds s.calls % 2 ^ 32) s.user ++
          [Event.graphicsEnd, Event.swapBuffers] ++
          (callOncePerTick env (stateAfterDraw env s)).events ∧
    (iteration env s).state = (callOncePerTick env (stateAfterDraw env s)).state := by
  have hg' : (stateAtNeedsRedraw env s).win.hasGraphics = true := by
    rw [stateAtNeedsRedraw_hasGraphics, hg]
  have hrd := redraw_of_draw_ok env (stateAtNeedsRedraw env s) hnr hg' hb hdraw
  have hrest := restOfTick_of_redraw_ok env (stateAtNeedsRedraw env s) (by rw [hrd])
  rw [hrd] at hrest
  rw [iteration_of_update_ok env s htick hin hup, hrest]
  refine ⟨?_, rfl⟩
  simp only [eventsToDraw, eventsToNeedsRedraw, List.append_assoc]
  rfl

/-- The steps of a tick in which the render scope was begun and `draw()` raised. -/
theorem iteration_events_draw_error {U : Type} (env : Env U) (s : ShowState U) (e : Exn)
    (htick : tickDue (env.milliseconds s.calls % 2 ^ 32) s.lastTick s.win.updateInterval = true)
    (hin : (env.inputUpdate s.user).result = .ok ())
    (hup : (env.update (env.userAtUpdate s.user)).result = .ok ())
    (hnr : (env.needsRedraw (env.userAtNeedsRedraw s.user)).result = .ok true)
    (hg : s.win.hasGraphics = true)
    (hb : env.begin (env.userAtDraw s.user) = true)
    (hdraw : (env.draw (env.userAtDraw s.user)).result = .error e) :
    (iteration env s).events =
      eventsToDraw env (env.milliseconds s.calls % 2 ^ 32) s.user ++ [Event.graphicsEnd] := by
  have hg' : (stateAtNeedsRedraw env s).win.hasGraphics = true := by
    rw [stateAtNeedsRedraw_hasGraphics, hg]
  have hrd := redraw_of_draw_error env (stateAtNeedsRedraw env s) e hnr hg' hb hdraw
  have hrest := restOfTick_of_raise env (stateAtNeedsRedraw env s) e (by rw [hrd])
  rw [hrd] at hrest
  rw [iteration_of_update_ok env s htick hin hup, hrest]
  simp only [eventsToDraw, eventsToNeedsRedraw, List.append_assoc]
  rfl

theorem showLoop_returned_closed {U : Type} (env : Env U) (fuel : Nat) :
    ∀ s : ShowState U, (showLoop env fuel s).outcome = Outcome.returned →
      (showLoop env fuel s).state.win.closed = true := by
  induction fuel with
  | zero =>
    intro s h
    cases hc : s.win.closed with
    | true =>
      rw [showLoop_closed env 0 s hc]
      exact hc
    | false =>
      simp [showLoop, hc] at h
  | succ fuel ih =>
    intro s h
    cases hc : s.win.closed with
    | true =>
      rw [showLoop_closed env _ s hc]
      exact hc
    | false =>
      cases hr : (iteration env s).raised with
      | some e =>
        rw [showLoop_raise env fuel s e hc hr] at h
        cases h
      | none =>
        rw [showLoop_continue env fuel s hc hr] at h ⊢
        exact ih _ h

theorem show_of_closed {U : Type} (env : Env U) (fuel : Nat) (w : Window) (user : U)
    (h : w.closed = true) :
    Window.show env fuel w user =
      ⟨[Event.showWindow], ⟨{ w with visible := true }, user, 0, 0⟩, Outcome.returned⟩ := by
  unfold Window.show
  simp only []
  rw [showLoop_closed env fuel _ (by exact h)]

/-! ## Theorems on the states and steps of the window -/

/-- C21: closed is a terminal state of the window. The closed flag starts false; no
operation of `Window` sets it back to false once it is true; `show()` returns normally only
when the flag is true; and `show()` called on an already closed window returns without
invoking `update()`, `needsRedraw()` or `draw()`: its only step is the `ShowWindow` call. -/
theorem closed_is_terminal (U : Type) :
    (∀ (width height : Nat) (fullscreen : Bool) (updateInterval : Double),
      (Window.ctor width height fullscreen updateInterval).closed = false) ∧
    (∀ (op : WindowOp U) (w : Window), w.closed = true → (w.apply op).closed = true) ∧
    (∀ (env : Env U) (fuel : Nat) (w : Window) (user : U),
      (Window.show env fuel w user).outcome = Outcome.returned →
        (Window.show env fuel w user).state.win.closed = true) ∧
    (∀ (env : Env U) (fuel : Nat) (w : Window) (user : U), w.closed = true →
      (Window.show env fuel w user).outcome = Outcome.returned ∧
      (Window.show env fuel w user).events = [Event.showWindow]) := by
  refine ⟨fun _ _ _ _ => rfl, ?_, ?_, ?_⟩
  · intro op w h
    cases op with
    | close => rfl
    | runShow env fuel user =>
      show (Window.show env fuel w user).state.win.closed = true
      rw [show_of_closed env fuel w user h]
      exact h
    | setCaption value => exact h
    | handleMessage message wparam lparam => exact h
  · intro env fuel w user h
    exact showLoop_returned_closed env fuel _ h
  · intro env fuel w user h
    rw [show_of_closed env fuel w user h]
    exact ⟨rfl, rfl⟩

theorem closed_is_terminal_witness :
    (Window.show (exampleEnv (fixedStepClock 16 16)) 3 (exampleWindow 16).close 0).events =
      [Event.showWindow] ∧
    ((exampleWindow 16).close.apply
      (WindowOp.runShow (exampleEnv (fixedStepClock 16 16)) 3 0)).closed = true :=
  ⟨((closed_is_terminal Nat).2.2.2 (exampleEnv (fixedStepClock 16 16)) 3
      (exampleWindow 16).close 0 rfl).2,
   (closed_is_terminal Nat).2.1 (WindowOp.runShow (exampleEnv (fixedStepClock 16 16)) 3 0)
      (exampleWindow 16).close rfl⟩

/-- C22 (counterexample): a tick in which `needsRedraw()` reports true and `begin()` fails.
No render scope is begun, `draw()` is not called and `graphics().end()` is never called, yet
the buffers are swapped: the swap stands after the `if` of the render scope, not inside it. -/
theorem swap_without_render_scope :
    ((beginFailsEnv (fixedStepClock 16 16)).needsRedraw 1).result = .ok true ∧
    (beginFailsEnv (fixedStepClock 16 16)).begin 1 = false ∧
    (iteration (beginFailsEnv (fixedStepClock 16 16)) (exampleStart (33 / 2))).events =
      [Event.milliseconds 16, Event.inputUpdate, Event.update 16, Event.needsRedraw,
        Event.graphicsBegin false, Event.swapBuffers] ∧
    Event.swapBuffers ∈
      (iteration (beginFailsEnv (fixedStepClock 16 16)) (exampleStart (33 / 2))).events ∧
    Event.graphicsEnd ∉
      (iteration (beginFailsEnv (fixedStepClock 16 16)) (exampleStart (33 / 2))).events := by
  have hev : (iteration (beginFailsEnv (fixedStepClock 16 16)) (exampleStart (33 / 2))).events =
      [Event.milliseconds 16, Event.inputUpdate, Event.update 16, Event.needsRedraw,
        Event.graphicsBegin false, Event.swapBuffers] := by
    rw [iteration_events_not_begun (beginFailsEnv (fixedStepClock 16 16))
      (exampleStart (33 / 2)) exampleStart_tickDue rfl rfl rfl (by decide)]
    rfl
  refine ⟨rfl, rfl, hev, ?_, ?_⟩
  · rw [hev]
    decide
  · rw [hev]
    decide

/-- C22 (amended): within one tick the steps run in the order input update, `update()`,
`needsRedraw()`, render, present. `draw()` is invoked if and only if `needsRedraw()`
reported true and the render scope was begun successfully. The buffers are swapped if and
only if `needsRedraw()` reported true and no exception escaped from `draw()`: directly after
the `graphics().end()` of the render scope when one was begun, and with no render scope and
no `graphics().end()` at all when none could be begun, because there is no graphics object
or `begin()` failed. When `needsRedraw()` reports false neither `draw()` nor a swap
occurs. -/
theorem tick_order {U : Type} (env : Env U) (s : ShowState U) (reported : Bool)
    (htick : tickDue (env.milliseconds s.calls % 2 ^ 32) s.lastTick s.win.updateInterval = true)
    (hin : (env.inputUpdate s.user).result = .ok ())
    (hup : (env.update (env.userAtUpdate s.user)).result = .ok ())
    (hnr : (env.needsRedraw (env.userAtNeedsRedraw s.user)).result = .ok reported) :
    eventsToDraw env (env.milliseconds s.calls % 2 ^ 32) s.user =
      eventsToNeedsRedraw env (env.milliseconds s.calls % 2 ^ 32) s.user ++
        [Event.graphicsBegin true, Event.draw] ++
        closeIf (env.draw (env.userAtDraw s.user)).calledClose ∧
    eventsToNeedsRedraw env (env.milliseconds s.calls % 2 ^ 32) s.user =
      [Event.milliseconds (env.milliseconds s.calls % 2 ^ 32), Event.inputUpdate] ++
        closeIf (env.inputUpdate s.user).calledClose ++
        (if env.mouseInside (env.userAtUpdate s.user) then [Event.setCursor] else []) ++
        [Event.update (env.milliseconds s.calls % 2 ^ 32)] ++
        closeIf (env.update (env.userAtUpdate s.user)).calledClose ++
        [Event.needsRedraw] ++
        closeIf (env.needsRedraw (env.userAtNeedsRedraw s.user)).calledClose ∧
    (Event.draw ∈ (iteration env s).events ↔
      (reported = true ∧ s.win.hasGraphics = true ∧
        env.begin (env.userAtDraw s.user) = true)) ∧
    (Event.swapBuffers ∈ (iteration env s).events ↔
      (reported = true ∧
        (s.win.hasGraphics = true → env.begin (env.userAtDraw s.user) = true →
          (env.draw (env.userAtDraw s.user)).result = .ok ()))) ∧
    (reported = true → s.win.hasGraphics = true → env.begin (env.userAtDraw s.user) = true →
      (env.draw (env.userAtDraw s.user)).result = .ok () →
      (iteration env s).events =
        eventsToDraw env (env.milliseconds s.calls % 2 ^ 32) s.user ++
          [Event.graphicsEnd, Event.swapBuffers] ++
          (callOncePerTick env (stateAfterDraw env s)).events) ∧
    (reported = true →
      ¬ (s.win.hasGraphics = true ∧ env.begin (env.userAtDraw s.user) = true) →
      (iteration env s).events =
        eventsToNeedsRedraw env (env.milliseconds s.calls % 2 ^ 32) s.user ++
          eventsNotBegun s.win.hasGraphics ++ [Event.swapBuffers] ++
          (callOncePerTick env (stateAtDraw env s)).events ∧
      Event.swapBuffers ∈ (iteration env s).events ∧
      Event.graphicsEnd ∉ (iteration env s).events) ∧
    (reported = false →
      (iteration env s).events =
        eventsToNeedsRedraw env (env.milliseconds s.calls % 2 ^ 32) s.user ++
          (callOncePerTick env (stateAtDraw env s)).events ∧
      Event.draw ∉ (iteration env s).events ∧
      Event.swapBuffers ∉ (iteration env s).events) := by
  have honce : ∀ (t : ShowState U) (ev : Event), ev ≠ Event.oncePerTick → ev ≠ Event.close →
      ev ∉ (callOncePerTick env t).events := by
    intro t ev h1 h2 hmem
    rcases mem_callOncePerTick_events hmem with h | h
    · exact h1 h
    · exact h2 h
  have hfalse : reported = false →
      (iteration env s).events =
        eventsToNeedsRedraw env (env.milliseconds s.calls % 2 ^ 32) s.user ++
          (callOncePerTick env (stateAtDraw env s)).events ∧
      Event.draw ∉ (iteration env s).events ∧
      Event.swapBuffers ∉ (iteration env s).events := by
    intro hr
    rw [hr] at hnr
    have hev := iteration_events_no_redraw env s htick hin hup hnr
    refine ⟨hev, ?_, ?_⟩
    · rw [hev]
      intro hmem
      rcases List.mem_append.mp hmem with h | h
      · exact draw_not_mem_eventsToNeedsRedraw env _ _ h
      · exact honce _ _ (by decide) (by decide) h
    · rw [hev]
      intro hmem
      rcases List.mem_append.mp hmem with h | h
      · exact swapBuffers_not_mem_eventsToNeedsRedraw env _ _ h
      · exact honce _ _ (by decide) (by decide) h
  have hnot : reported = true →
      ¬ (s.win.hasGraphics = true ∧ env.begin (env.userAtDraw s.user) = true) →
      (iteration env s).events =
        eventsToNeedsRedraw env (env.milliseconds s.calls % 2 ^ 32) s.user ++
          eventsNotBegun s.win.hasGraphics ++ [Event.swapBuffers] ++
          (callOncePerTick env (stateAtDraw env s)).events := by
    intro hr h
    rw [hr] at hnr
    exact iteration_events_not_begun env s htick hin hup hnr h
  have hnoScope : reported = true →
      ¬ (s.win.hasGraphics = true ∧ env.begin (env.userAtDraw s.user) = true) →
      Event.swapBuffers ∈ (iteration env s).events ∧
      Event.graphicsEnd ∉ (iteration env s).events := by
    intro hr h
    rw [hnot hr h]
    refine ⟨List.mem_append_left _ (List.mem_append_right _ (List.mem_singleton.mpr rfl)), ?_⟩
    intro hmem
    simp only [List.mem_append, List.mem_singleton] at hmem
    rcases hmem with ((h1 | h1) | h1) | h1
    · exact graphicsEnd_not_mem_eventsToDraw env _ _
        (List.mem_append_left _ (List.mem_append_left _ h1))
    · unfold eventsNotBegun at h1
      split at h1 <;> simp at h1
    · cases h1
    · exact honce _ _ (by decide) (by decide) h1
  have hswap : Event.swapBuffers ∈ (iteration env s).events ↔
      (reported = true ∧
        (s.win.hasGraphics = true → env.begin (env.userAtDraw s.user) = true →
          (env.draw (env.userAtDraw s.user)).result = .ok ())) := by
    constructor
    · intro hmem
      cases hr : reported with
      | false => exact absurd hmem (hfalse hr).2.2
      | true =>
        refine ⟨rfl, fun hg hb => ?_⟩
        rw [hr] at hnr
        cases hd : (env.draw (env.userAtDraw s.user)).result with
        | ok v => rfl
        | error e =>
          rw [iteration_events_draw_error env s e htick hin hup hnr hg hb hd] at hmem
          exfalso
          rcases List.mem_append.mp hmem with h1 | h1
          · exact swapBuffers_not_mem_eventsToDraw env _ _ h1
          · cases List.mem_singleton.mp h1
    · rintro ⟨hr, hd⟩
      by_cases hbegun : s.win.hasGraphics = true ∧ env.begin (env.userAtDraw s.user) = true
      · rw [hr] at hnr
        rw [(iteration_events_draw_ok env s htick hin hup hnr hbegun.1 hbegun.2
          (hd hbegun.1 hbegun.2)).1]
        exact List.mem_append_left _ (List.mem_append_right _
          (List.mem_cons_of_mem _ (List.mem_singleton.mpr rfl)))
      · exact (hnoScope hr hbegun).1
  refine ⟨rfl, rfl, ⟨fun hmem => ?_, fun h => ?_⟩, hswap,
    fun hr hg hb hdraw => ?_, fun hr h => ⟨hnot hr h, hnoScope hr h⟩, hfalse⟩
  · cases hr : reported with
    | false => exact absurd hmem (hfalse hr).2.1
    | true =>
      by_cases hbegun : s.win.hasGraphics = true ∧ env.begin (env.userAtDraw s.user) = true
      · exact ⟨rfl, hbegun⟩
      · rw [hnot hr hbegun] at hmem
        exfalso
        simp only [List.mem_append, List.mem_singleton] at hmem
        rcases hmem with ((h | h) | h) | h
        · exact draw_not_mem_eventsToNeedsRedraw env _ _ h
        · unfold eventsNotBegun at h
          split at h <;> simp at h
        · cases h
        · exact honce _ _ (by decide) (by decide) h
  · obtain ⟨hr, hg, hb⟩ := h
    rw [hr] at hnr
    cases hd : (env.draw (env.userAtDraw s.user)).result with
    | ok v =>
      rw [(iteration_events_draw_ok env s htick hin hup hnr hg hb hd).1]
      exact List.mem_append_left _ (List.mem_append_left _ (draw_mem_eventsToDraw env _ _))
    | error e =>
      rw [iteration_events_draw_error env s e htick hin hup hnr hg hb hd]
      exact List.mem_append_left _ (draw_mem_eventsToDraw env _ _)
  · rw [hr] at hnr
    exact (iteration_events_draw_ok env s htick hin hup hnr hg hb hdraw).1

theorem tick_order_witness :
    Event.draw ∈
      (iteration (exampleEnv (fixedStepClock 16 16)) (exampleStart (33 / 2))).events ∧
    Event.swapBuffers ∉
      (iteration (noRedrawEnv (fixedStepClock 16 16)) (exampleStart (33 / 2))).events ∧
    Event.swapBuffers ∈
      (iteration (exampleEnv (fixedStepClock 16 16)) (exampleStart (33 / 2))).events ∧
    ((iteration (beginFailsEnv (fixedStepClock 16 16)) (exampleStart (33 / 2))).events =
      eventsToNeedsRedraw (beginFailsEnv (fixedStepClock 16 16))
          (fixedStepClock 16 16 0 % 2 ^ 32) 0 ++
        eventsNotBegun true ++ [Event.swapBuffers] ++
        (callOncePerTick (beginFailsEnv (fixedStepClock 16 16))
          (stateAtDraw (beginFailsEnv (fixedStepClock 16 16)) (exampleStart (33 / 2)))).events ∧
      Event.swapBuffers ∈
        (iteration (beginFailsEnv (fixedStepClock 16 16)) (exampleStart (33 / 2))).events ∧
      Event.graphicsEnd ∉
        (iteration (beginFailsEnv (fixedStepClock 16 16)) (exampleStart (33 / 2))).events) :=
  ⟨(tick_order (exampleEnv (fixedStepClock 16 16)) (exampleStart (33 / 2)) true
      exampleStart_tickDue rfl rfl rfl).2.2.1.mpr ⟨rfl, rfl, rfl⟩,
   ((tick_order (noRedrawEnv (fixedStepClock 16 16)) (exampleStart (33 / 2)) false
      exampleStart_tickDue rfl rfl rfl).2.2.2.2.2.2 rfl).2.2,
   (tick_order (exampleEnv (fixedStepClock 16 16)) (exampleStart (33 / 2)) true
      exampleStart_tickDue rfl rfl rfl).2.2.2.1.mpr ⟨rfl, fun _ _ => rfl⟩,
   (tick_order (beginFailsEnv (fixedStepClock 16 16)) (exampleStart (33 / 2)) true
      exampleStart_tickDue rfl rfl rfl).2.2.2.2.2.1 rfl (by decide)⟩

/-- C23: the closed flag is examined only at the top of each pass of the loop. In the very
pass in which `update()` calls `close()` the rest of the tick still runs: `needsRedraw()` is
queried on the closed window and, when it reports true and `begin()` succeeds, `draw()` is
invoked exactly once; when `draw()` returns, the buffers are swapped after the window was
closed. -/
theorem close_takes_effect_at_loop_top {U : Type} (env : Env U) (s : ShowState U)
    (htick : tickDue (env.milliseconds s.calls % 2 ^ 32) s.lastTick s.win.updateInterval = true)
    (hin : (env.inputUpdate s.user).result = .ok ())
    (hup : (env.update (env.userAtUpdate s.user)).result = .ok ())
    (hclose : (env.update (env.userAtUpdate s.user)).calledClose = true)
    (hnr : (env.needsRedraw (env.userAtNeedsRedraw s.user)).result = .ok true)
    (hg : s.win.hasGraphics = true)
    (hb : env.begin (env.userAtDraw s.user) = true) :
    (stateAtNeedsRedraw env s).win.closed = true ∧
    eventsToDraw env (env.milliseconds s.calls % 2 ^ 32) s.user =
      [Event.milliseconds (env.milliseconds s.calls % 2 ^ 32), Event.inputUpdate] ++
        closeIf (env.inputUpdate s.user).calledClose ++
        (if env.mouseInside (env.userAtUpdate s.user) then [Event.setCursor] else []) ++
        [Event.update (env.milliseconds s.calls % 2 ^ 32), Event.close, Event.needsRedraw] ++
        closeIf (env.needsRedraw (env.userAtNeedsRedraw s.user)).calledClose ++
        [Event.graphicsBegin true, Event.draw] ++
        closeIf (env.draw (env.userAtDraw s.user)).calledClose ∧
    (∃ rest, (iteration env s).events =
      eventsToDraw env (env.milliseconds s.calls % 2 ^ 32) s.user ++ rest) ∧
    (iteration env s).events.count Event.draw = 1 ∧
    ((env.draw (env.userAtDraw s.user)).result = .ok () →
      (iteration env s).events =
        eventsToDraw env (env.milliseconds s.calls % 2 ^ 32) s.user ++
          [Event.graphicsEnd, Event.swapBuffers] ++
          (callOncePerTick env (stateAfterDraw env s)).events ∧
      (iteration env s).state.win.closed = true) := by
  have hc : (stateAtNeedsRedraw env s).win.closed = true :=
    after_closed_of_called _ _ hclose
  have hshape : eventsToDraw env (env.milliseconds s.calls % 2 ^ 32) s.user =
      [Event.milliseconds (env.milliseconds s.calls % 2 ^ 32), Event.inputUpdate] ++
        closeIf (env.inputUpdate s.user).calledClose ++
        (if env.mouseInside (env.userAtUpdate s.user) then [Event.setCursor] else []) ++
        [Event.update (env.milliseconds s.calls % 2 ^ 32), Event.close, Event.needsRedraw] ++
        closeIf (env.needsRedraw (env.userAtNeedsRedraw s.user)).calledClose ++
        [Event.graphicsBegin true, Event.draw] ++
        closeIf (env.draw (env.userAtDraw s.user)).calledClose := by
    simp only [eventsToDraw, eventsToNeedsRedraw, eventsToUpdate, hclose, closeIf, if_true,
      List.append_assoc, List.cons_append, List.nil_append]
  have honce : ∀ t : ShowState U, (callOncePerTick env t).events.count Event.draw = 0 := by
    intro t
    apply List.count_eq_zero_of_not_mem
    intro hmem
    rcases mem_callOncePerTick_events hmem with h | h <;> cases h
  have hclosedEnd : (iteration env s).state.win.closed = true := by
    rw [iteration_of_input_ok env s htick hin]
    exact fromUpdate_closed env _ (stateAtUpdate env s) hclose
  refine ⟨hc, hshape, ?_, ?_, fun hdraw =>
    ⟨(iteration_events_draw_ok env s htick hin hup hnr hg hb hdraw).1, hclosedEnd⟩⟩
  · cases hd : (env.draw (env.userAtDraw s.user)).result with
    | ok v =>
      exact ⟨_, by
        rw [(iteration_events_draw_ok env s htick hin hup hnr hg hb hd).1, List.append_assoc]⟩
    | error e =>
      exact ⟨_, iteration_events_draw_error env s e htick hin hup hnr hg hb hd⟩
  · cases hd : (env.draw (env.userAtDraw s.user)).result with
    | ok v =>
      rw [(iteration_events_draw_ok env s htick hin hup hnr hg hb hd).1, List.count_append,
        List.count_append, count_draw_eventsToDraw, honce]
      rfl
    | error e =>
      rw [iteration_events_draw_error env s e htick hin hup hnr hg hb hd, List.count_append,
        count_draw_eventsToDraw]
      rfl

theorem close_takes_effect_at_loop_top_witness :
    (stateAtNeedsRedraw (closingEnv (fixedStepClock 16 16))
      (exampleStart (33 / 2))).win.closed = true ∧
    (iteration (closingEnv (fixedStepClock 16 16)) (exampleStart (33 / 2))).events.count
      Event.draw = 1 ∧
    (iteration (closingEnv (fixedStepClock 16 16)) (exampleStart (33 / 2))).events =
      eventsToDraw (closingEnv (fixedStepClock 16 16)) (fixedStepClock 16 16 0 % 2 ^ 32) 0 ++
        [Event.graphicsEnd, Event.swapBuffers] ++
        (callOncePerTick (closingEnv (fixedStepClock 16 16))
          (stateAfterDraw (closingEnv (fixedStepClock 16 16)) (exampleStart (33 / 2)))).events :=
  ⟨(close_takes_effect_at_loop_top (closingEnv (fixedStepClock 16 16))
      (exampleStart (33 / 2)) exampleStart_tickDue rfl rfl rfl rfl rfl rfl).1,
   (close_takes_effect_at_loop_top (closingEnv (fixedStepClock 16 16))
      (exampleStart (33 / 2)) exampleStart_tickDue rfl rfl rfl rfl rfl rfl).2.2.2.1,
   ((close_takes_effect_at_loop_top (closingEnv (fixedStepClock 16 16))
      (exampleStart (33 / 2)) exampleStart_tickDue rfl rfl rfl rfl rfl rfl).2.2.2.2 rfl).1⟩

/-! ## The position-less `draw` and the bitwise reading of `FlagWrapper` -/

theorem drawNoPos_eq_resume (img : Image) (mods : List DrawArg) :
    img.drawNoPos mods = img.resume (DrawCall.initial 0 0 0) mods := by
  unfold Image.drawNoPos
  rw [draw_eq_resume]
  norm_num

/-- C24: for every non-empty modifier list the position-less overload `draw(modifiers...)`
resolves to the same parameter tuple as `draw(0, 0, 0, modifiers...)`: `x`, `y` and `z` are 0
unless a modifier governs them, and otherwise hold what the last `Position` or
`PositionOfCenter`, respectively the last `ZPosSet`, of the list gives. -/
theorem drawNoPos_eq_draw_zero (img : Image) (mods : List DrawArg) (_hne : mods ≠ []) :
    img.drawNoPos mods = img.draw 0 0 0 mods ∧
    ((∀ m ∈ mods, m.governs Group.position = false) →
      ((img.drawNoPos mods).x, (img.drawNoPos mods).y) = (0, 0)) ∧
    ((∀ m ∈ mods, m.governs Group.depth = false) → (img.drawNoPos mods).z = 0) ∧
    (∀ m, lastGoverning Group.position mods = some m →
      m.gives img Group.position =
        some (GroupValue.pair (img.drawNoPos mods).x (img.drawNoPos mods).y)) ∧
    (∀ m, lastGoverning Group.depth mods = some m →
      m.gives img Group.depth = some (GroupValue.single (img.drawNoPos mods).z)) := by
  have hsome : ∀ (g : Group) (m : DrawArg), lastGoverning g mods = some m →
      m.gives img g = some ((img.drawNoPos mods).value g) := by
    intro g m h
    have key := value_resume img (DrawCall.initial 0 0 0) mods g
    rw [← drawNoPos_eq_resume, h] at key
    have hg := (lastGoverning_some h).2
    rw [governs_eq_isSome img] at hg
    cases hv : m.gives img g with
    | none => rw [hv] at hg; cases hg
    | some v =>
      simp only [hv, Option.getD_some] at key
      rw [key]
  have hnone : ∀ g : Group, (∀ m ∈ mods, m.governs g = false) →
      (img.drawNoPos mods).value g = (DrawCall.initial 0 0 0).value g := by
    intro g h
    have key := value_resume img (DrawCall.initial 0 0 0) mods g
    rw [← drawNoPos_eq_resume, lastGoverning_eq_none.mpr h] at key
    exact key
  refine ⟨?_, fun h => ?_, fun h => ?_, fun m h => hsome _ m h, fun m h => hsome _ m h⟩
  · rw [drawNoPos_eq_resume, draw_eq_resume]
  · have := hnone _ h
    simp only [DrawCall.value, DrawCall.initial, GroupValue.pair.injEq] at this
    rw [this.1, this.2]
  · have := hnone _ h
    simp only [DrawCall.value, DrawCall.initial, GroupValue.single.injEq] at this
    exact this

theorem drawNoPos_eq_draw_zero_witness :
    (Image.mk 4 2).drawNoPos [DrawArg.Rotate ⟨90⟩, DrawArg.Position ⟨3, 4⟩] =
      (Image.mk 4 2).draw 0 0 0 [DrawArg.Rotate ⟨90⟩, DrawArg.Position ⟨3, 4⟩] ∧
    ((Image.mk 4 2).drawNoPos [DrawArg.Rotate ⟨90⟩, DrawArg.Position ⟨3, 4⟩]).z = 0 :=
  ⟨(drawNoPos_eq_draw_zero (Image.mk 4 2) [DrawArg.Rotate ⟨90⟩, DrawArg.Position ⟨3, 4⟩]
      (by decide)).1,
   (drawNoPos_eq_draw_zero (Image.mk 4 2) [DrawArg.Rotate ⟨90⟩, DrawArg.Position ⟨3, 4⟩]
      (by decide)).2.2.1 (by decide)⟩

theorem testBit_and_not {w : Nat} (v f : int_type w) (i : Nat) :
    (v.and f.not).val.testBit i = (v.val.testBit i && !f.val.testBit i) := by
  show (v.val &&& f.not.val).testBit i = _
  rw [Nat.testBit_and, testBit_not]
  cases hv : v.val.testBit i with
  | false => rfl
  | true =>
    have := testBit_lt_width v hv
    simp [this]

/-- C25: `Add`, `Remove` and `Mask` are bitwise OR, AND-NOT and AND on the underlying integer.
After `v.Remove(f)` every bit of `f` is clear (`v & f` converts to `false`) and every bit
outside `f` is unchanged; after `v.Add(f)` every bit of `f` is set and every bit outside `f`
is unchanged; after `v.Mask(f)` exactly the bits set in both `v` and `f` remain. -/
theorem FlagWrapper.Add_Remove_Mask_bitwise {w : Nat} (v : FlagWrapper w) (f : int_type w) :
    (v.Add f).flag.val = v.flag.val ||| f.val ∧
    (v.Remove f).flag.val = v.flag.val &&& (2 ^ w - 1 - f.val) ∧
    (v.Mask f).flag.val = v.flag.val &&& f.val ∧
    ((v.Remove f).andEnum f).toBool = false ∧
    (∀ i, f.val.testBit i = true → (v.Remove f).flag.val.testBit i = false) ∧
    (∀ i, f.val.testBit i = false →
      (v.Remove f).flag.val.testBit i = v.flag.val.testBit i) ∧
    (∀ i, f.val.testBit i = true → (v.Add f).flag.val.testBit i = true) ∧
    (∀ i, f.val.testBit i = false → (v.Add f).flag.val.testBit i = v.flag.val.testBit i) ∧
    (∀ i, (v.Mask f).flag.val.testBit i = (v.flag.val.testBit i && f.val.testBit i)) := by
  have hrem : ∀ i, (v.Remove f).flag.val.testBit i =
      (v.flag.val.testBit i && !f.val.testBit i) := fun i => testBit_and_not v.flag f i
  have hadd : ∀ i, (v.Add f).flag.val.testBit i =
      (v.flag.val.testBit i || f.val.testBit i) := fun i => Nat.testBit_or _ _ i
  refine ⟨rfl, rfl, rfl, ?_, ?_, ?_, ?_, ?_, fun i => Nat.testBit_and _ _ i⟩
  · apply decide_eq_false
    intro hne
    apply hne
    show (v.Remove f).flag.val &&& f.val = 0
    apply Nat.eq_of_testBit_eq
    intro i
    rw [Nat.testBit_and, hrem, Nat.zero_testBit]
    cases v.flag.val.testBit i <;> cases f.val.testBit i <;> rfl
  · intro i hf
    rw [hrem, hf]
    simp
  · intro i hf
    rw [hrem, hf]
    simp
  · intro i hf
    rw [hadd, hf]
    simp
  · intro i hf
    rw [hadd, hf]
    simp

theorem FlagWrapper.Add_Remove_Mask_bitwise_witness :
    ((FlagWrapper.mk (5 : int_type 8)).Remove 3).flag.val.testBit 0 = false ∧
    ((FlagWrapper.mk (5 : int_type 8)).Remove 3).flag.val.testBit 2 =
      (FlagWrapper.mk (5 : int_type 8)).flag.val.testBit 2 ∧
    ((FlagWrapper.mk (5 : int_type 8)).Add 3).flag.val.testBit 1 = true :=
  ⟨(FlagWrapper.Add_Remove_Mask_bitwise (FlagWrapper.mk (5 : int_type 8)) 3).2.2.2.2.1 0
      (by decide),
   (FlagWrapper.Add_Remove_Mask_bitwise (FlagWrapper.mk (5 : int_type 8)) 3).2.2.2.2.2.1 2
      (by decide),
   (FlagWrapper.Add_Remove_Mask_bitwise (FlagWrapper.mk (5 : int_type 8)) 3).2.2.2.2.2.2.1 1
      (by decide)⟩

end Gosu
